import Mathlib

/-!
Verification development for the huwise-utils-py client library.

This file shallowly embeds the parts of the library that the verified
properties talk about:

* `src/huwise_utils_py/bulk.py` — bulk metadata fetch (concurrent and
  sequential), bulk metadata update, and bulk dataset-id listing;
* `src/huwise_utils_py/dataset.py` — the idle-wait poll loop and the
  per-field metadata write;
* `src/huwise_utils_py/http.py` — the retry decorator used by the HTTP
  gateway;
* `src/huwise_utils_py/utils/validators.py` — the single-identifier
  validator.

Modelling conventions:

* Python dicts are insertion-ordered association lists
  `List (String × α)`; assignment `d[k] = v` replaces the value at the
  first occurrence of `k` in place (keeping its position) or appends a
  fresh entry, exactly as CPython dicts behave (`aset`).
* Remote I/O is abstracted by environment records of oracles
  (`FetchEnv`, `UpdateEnv`); every oracle answer is an
  `Except Er _` value, where an `Except.error e` models the Python call
  raising an exception whose `str()` is `e`.
* Each embedded operation runs in the monad-like type `M α`, a pair of
  an `Except Er α` (normal return or uncaught exception) and the list
  of network requests issued so far, in order.  This makes both the
  exception behaviour and the number/order of transport-layer calls of
  every code path visible to theorems.
* Python truthiness (`if dataset_uid and dataset_id:`) is embedded by
  `JVal.truthy`; `None`-ness tests (`is not None`) are embedded by
  `Option.isSome`.
-/

namespace Huwise

/-- Error messages carried by Python exceptions (their `str()` form). -/
abbrev Er := String

/-- JSON-like values stored in metadata fields and update specs
(strings, numbers, booleans and string lists cover every value shape
the verified properties exercise). -/
inductive JVal where
  | str : String → JVal
  | nat : Nat → JVal
  | bool : Bool → JVal
  | strList : List String → JVal
deriving DecidableEq

/-- Python truthiness of a value, as used by
`if dataset_uid and dataset_id:` in `bulk.py` (empty string, zero,
False and empty list are falsy). -/
def JVal.truthy : JVal → Bool
  | .str s => !s.isEmpty
  | .nat n => !(n == 0)
  | .bool b => b
  | .strList l => !l.isEmpty

/-- Python `str()` coercion used at `uid = str(dataset_uid)`
(`bulk.py:151`).  On the string values actually reaching that line it
is the identity; the remaining cases mirror `str()` on the other
embedded value shapes (list `str()` is abstracted). -/
def JVal.pyStr : JVal → String
  | .str s => s
  | .nat n => toString n
  | .bool b => cond b "True" "False"
  | .strList _ => "[...]"

/-- Truthiness of `d.get(k)`: `None` (absent key) is falsy. -/
def truthyO : Option JVal → Bool
  | none => false
  | some v => v.truthy

/-- Dict lookup `d.get(k)` on an insertion-ordered association list. -/
def alookup : List (String × α) → String → Option α
  | [], _ => none
  | (k, v) :: m, k' => if k' = k then some v else alookup m k'

/-- Dict assignment `d[k] = v`: replace in place at the first
occurrence of `k`, else append. -/
def aset : List (String × α) → String → α → List (String × α)
  | [], k, v => [(k, v)]
  | (k', v') :: m, k, v => if k = k' then (k, v) :: m else (k', v') :: aset m k v

/-- The key list of a dict, in insertion order. -/
def keys (m : List (String × α)) : List String := m.map Prod.fst

/-- One network request, abstracted to the information the verified
properties need.  Each constructor corresponds to exactly one HTTP
request shape issued by the source. -/
inductive Call where
  /-- `GET /datasets/?dataset_id=...` followed by
  `response.json()["results"][0]["uid"]` (identifier resolution). -/
  | resolveId (idVal : JVal)
  /-- `GET` of a dataset (or its metadata document). -/
  | getMeta (uid : String)
  /-- `PUT /datasets/{uid}/metadata/` with the full document body. -/
  | putMeta (uid : String) (body : List (String × List (String × List (String × JVal))))
  /-- `POST /datasets/{uid}/publish/`. -/
  | publish (uid : String)
  /-- `GET /datasets/{uid}/status`. -/
  | statusGet (uid : String)
  /-- `time.sleep(n)` between status polls (not a network call, logged
  so that the poll cadence is visible). -/
  | sleepSec (n : Nat)
  /-- `PUT /datasets/{uid}/metadata/{template}/{field}/` with `{value}`. -/
  | putField (uid tmpl fld : String) (v : JVal)
  /-- One paginated `GET /datasets/?limit=...` page request. -/
  | listPage
deriving DecidableEq

/-- A metadata field object: the `{value: ...}` wrapper dict (possibly
with further platform-managed keys). -/
abbrev FieldObj := List (String × JVal)

/-- One metadata template: field name to field object. -/
abbrev Tmpl := List (String × FieldObj)

/-- A full metadata document: template name to template. -/
abbrev Metadata := List (String × Tmpl)

/-- An update spec: one entry of the `updates` list passed to bulk
update (identifier keys plus field values). -/
abbrev Spec := List (String × JVal)

/-- Result of running an embedded operation: the returned value or the
uncaught exception, together with the requests issued, in order. -/
abbrev M (α : Type) : Type := Except Er α × List Call

/-- Normal return without touching the network. -/
def M.pure (a : α) : M α := (Except.ok a, [])

/-- Raise an exception without touching the network
(models `raise ValueError(...)`). -/
def M.fail (e : Er) : M α := (Except.error e, [])

/-- Sequencing: on an uncaught exception the rest of the body does not
run, and the request log so far is kept. -/
def M.bind (x : M α) (f : α → M β) : M β :=
  match x with
  | (Except.error e, l) => (Except.error e, l)
  | (Except.ok a, l) => ((f a).1, l ++ (f a).2)

/-- Issue one network request whose outcome is `r`; an `error` outcome
models the call raising. -/
def M.net (c : Call) (r : Except Er α) : M α := (r, [c])

/-- A `try: ... except Exception as e: ...` block around a whole body:
the body's exception is mapped to a value instead of propagating. -/
def M.catchOut (x : M α) (ok : α → β) (er : Er → β) : M β :=
  match x with
  | (Except.ok a, l) => (Except.ok (ok a), l)
  | (Except.error e, l) => (Except.ok (er e), l)

/-- Outcome of fetching one dataset's metadata, distinguishing where a
failure happens: `reqFail` is the HTTP request itself raising (caught
per item in both bulk-fetch variants), while `parseFail` is
`response.json()["metadata"]` raising on an already-returned response —
in the concurrent variant that expression runs outside the
exception-capturing gather (`bulk.py:86`). -/
inductive FetchRes where
  | ok (md : Metadata)
  | reqFail (e : Er)
  | parseFail (e : Er)
deriving DecidableEq

/-- Remote-side oracles for the bulk fetch path. -/
structure FetchEnv where
  /-- `GET /datasets/?dataset_id=...` plus
  `response.json()["results"][0]["uid"]`; an error models either the
  request or the result extraction raising. -/
  resolve : String → Except Er String
  /-- `GET /datasets/{uid}` and the subsequent metadata extraction. -/
  fetchMeta : String → FetchRes

/-- One entry of the per-key result mapping of bulk fetch: the parsed
metadata document, or the captured error dict `{"error": str(e)}`. -/
inductive FetchOut where
  | meta (md : Metadata)
  | failed (e : Er)
deriving DecidableEq

/-- The identifier-resolution loop of `bulk_get_metadata_async`
(`bulk.py:63-69`) and `bulk_get_metadata` (`bulk.py:236-241`), which
are textually identical: resolve each numeric id sequentially,
accumulating the uid list and the `uid -> id` reverse map. -/
def resolveIds (env : FetchEnv) :
    List String → List String → List (String × String) →
    M (List String × List (String × String))
  | [], uids, idToUid => M.pure (uids, idToUid)
  | i :: rest, uids, idToUid =>
    M.bind (M.net (.resolveId (.str i)) (env.resolve i)) (fun uid =>
      resolveIds env rest (uids ++ [uid]) (aset idToUid uid i))

/-- The per-uid outcome as computed by the sequential fetch loop
(`bulk.py:248-255`): request and parse failures are both caught by the
per-item `try/except`. -/
def seqOutcome (fr : FetchRes) : FetchOut :=
  match fr with
  | .ok md => .meta md
  | .reqFail e => .failed e
  | .parseFail e => .failed e

/-- The sequential fetch loop of `bulk_get_metadata`
(`bulk.py:247-255`). -/
def fetchSeq (env : FetchEnv) (idToUid : List (String × String)) :
    List String → List (String × FetchOut) → M (List (String × FetchOut))
  | [], result => M.pure result
  | uid :: rest, result =>
    M.bind (M.net (.getMeta uid) (Except.ok (env.fetchMeta uid))) (fun fr =>
      fetchSeq env idToUid rest
        (aset result ((alookup idToUid uid).getD uid) (seqOutcome fr)))

/-- The concurrent fan-out `asyncio.gather(*tasks,
return_exceptions=True)` (`bulk.py:76-77`): one GET task per uid, each
task's raised exception captured as a value; results are in task
order.  Only the HTTP request runs inside a task, so only `reqFail` is
captured here. -/
def gatherFetch (env : FetchEnv) : List String → M (List FetchRes)
  | [] => M.pure []
  | uid :: rest =>
    M.bind (M.net (.getMeta uid) (Except.ok (env.fetchMeta uid))) (fun fr =>
      M.bind (gatherFetch env rest) (fun frs => M.pure (fr :: frs)))

/-- The result-assembly loop of `bulk_get_metadata_async`
(`bulk.py:79-86`): captured task exceptions become `{"error": ...}`
entries, but `response.json()["metadata"]` runs outside any
`try/except`, so a parse failure propagates and aborts the call. -/
def assembleAsync (idToUid : List (String × String)) :
    List (String × FetchRes) → List (String × FetchOut) →
    M (List (String × FetchOut))
  | [], result => M.pure result
  | (uid, fr) :: rest, result =>
    match fr with
    | .reqFail e =>
      assembleAsync idToUid rest
        (aset result ((alookup idToUid uid).getD uid) (.failed e))
    | .ok md =>
      assembleAsync idToUid rest
        (aset result ((alookup idToUid uid).getD uid) (.meta md))
    | .parseFail e => M.fail e

/-- `bulk_get_metadata_async` (`bulk.py:22-94`): validate the two
optional identifier lists, resolve numeric ids sequentially, fan out
the metadata GETs concurrently, then assemble the keyed result
mapping. -/
def bulk_get_metadata_async (env : FetchEnv)
    (dataset_ids dataset_uids : Option (List String)) :
    M (List (String × FetchOut)) :=
  if dataset_ids.isSome && dataset_uids.isSome then
    M.fail "dataset_ids and dataset_uids are mutually exclusive"
  else if dataset_ids.isNone && dataset_uids.isNone then
    M.fail "Either dataset_ids or dataset_uids must be specified"
  else
    M.bind (match dataset_ids with
      | some ids => resolveIds env ids [] []
      | none => M.pure (dataset_uids.getD [], []))
    (fun r =>
      M.bind (gatherFetch env r.1) (fun frs =>
        assembleAsync r.2 (r.1.zip frs) []))

/-- `bulk_get_metadata` (`bulk.py:197-263`): same contract with a
sequential per-uid fetch loop whose `try/except` captures each item's
failure. -/
def bulk_get_metadata (env : FetchEnv)
    (dataset_ids dataset_uids : Option (List String)) :
    M (List (String × FetchOut)) :=
  if dataset_ids.isSome && dataset_uids.isSome then
    M.fail "dataset_ids and dataset_uids are mutually exclusive"
  else if dataset_ids.isNone && dataset_uids.isNone then
    M.fail "Either dataset_ids or dataset_uids must be specified"
  else
    M.bind (match dataset_ids with
      | some ids => resolveIds env ids [] []
      | none => M.pure (dataset_uids.getD [], []))
    (fun r => fetchSeq env r.2 r.1 [])

/-- `validate_dataset_identifier` (`validators.py:11-59`): presence is
tested with `is not None`, so an empty string counts as a supplied
identifier. -/
def validate_dataset_identifier (resolve : String → Except Er String)
    (dataset_id dataset_uid : Option String) : M String :=
  if dataset_id.isSome && dataset_uid.isSome then
    M.fail "dataset_id and dataset_uid are mutually exclusive"
  else if dataset_id.isNone && dataset_uid.isNone then
    M.fail "Either dataset_id or dataset_uid must be specified"
  else
    match dataset_id with
    | some i => M.net (.resolveId (.str i)) (resolve i)
    | none => M.pure (dataset_uid.getD "")

/-- Remote-side oracles for the bulk update path.  In
`bulk_update_metadata_async` the metadata GET and its `response.json()`
both run inside the per-spec `try`, so a single `Except`-valued oracle
is faithful there. -/
structure UpdateEnv where
  /-- `GET /datasets/?dataset_id=...` plus uid extraction
  (`bulk.py:148-149`), run outside the per-spec `try`. -/
  resolve : JVal → Except Er String
  /-- `GET /datasets/{uid}/metadata/` plus `response.json()`
  (`bulk.py:155-156`). -/
  fetchMeta : String → Except Er Metadata
  /-- `PUT /datasets/{uid}/metadata/` with the document body
  (`bulk.py:171`). -/
  putMeta : String → Metadata → Except Er Unit
  /-- `POST /datasets/{uid}/publish/` (`bulk.py:174`). -/
  publishOp : String → Except Er Unit

/-- One entry of the bulk-update result mapping:
`{"status": "success", "fields_updated": [...]}` or
`{"status": "error", "error": msg}`. -/
inductive UpdOut where
  | success (fields_updated : List String)
  | failure (msg : Er)
deriving DecidableEq

/-- One iteration of the field-write loop body (`bulk.py:163-167`):
ensure `metadata["default"]` exists, ensure the field entry exists,
then set its `"value"` key. -/
def writeField (md : Metadata) (k : String) (v : JVal) : Metadata :=
  let md1 := if (alookup md "default").isSome then md else aset md "default" []
  let dflt := (alookup md1 "default").getD []
  let dflt1 := if (alookup dflt k).isSome then dflt else aset dflt k []
  let fo := (alookup dflt1 k).getD []
  aset md1 "default" (aset dflt1 k (aset fo "value" v))

/-- The field-write loop of `bulk_update_metadata_async`
(`bulk.py:159-168`): walk the spec entries in order, skip the two
identifier keys, write every other entry into the default template and
collect the touched field names. -/
def applyFields : Metadata → List String → Spec → Metadata × List String
  | md, fieldsUpdated, [] => (md, fieldsUpdated)
  | md, fieldsUpdated, (k, v) :: rest =>
    if k = "dataset_uid" ∨ k = "dataset_id" then applyFields md fieldsUpdated rest
    else applyFields (writeField md k v) (fieldsUpdated ++ [k]) rest

/-- The body of the per-spec `try` block (`bulk.py:153-176`): fetch the
current document, apply the field writes, PUT the whole document back,
optionally publish, and return the touched field list. -/
def tryBody (env : UpdateEnv) (pub : Bool) (uid : String) (update : Spec) :
    M (List String) :=
  M.bind (M.net (.getMeta uid) (env.fetchMeta uid)) (fun md =>
    let r := applyFields md [] update
    M.bind (M.net (.putMeta uid r.1) (env.putMeta uid r.1)) (fun _ =>
      M.bind (if pub then M.net (.publish uid) (env.publishOp uid) else M.pure ())
        (fun _ => M.pure r.2)))

/-- Processing of one update spec (`bulk.py:137-181`): truthiness-based
identifier validation and id resolution run before (outside) the
`try`, so their exceptions propagate; everything from the metadata
fetch onwards is caught and recorded as this spec's outcome. -/
def processUpdate (env : UpdateEnv) (pub : Bool) (update : Spec) :
    M (String × UpdOut) :=
  let duid := alookup update "dataset_uid"
  let did := alookup update "dataset_id"
  if truthyO duid && truthyO did then
    M.fail "Update contains both dataset_id and dataset_uid"
  else if !truthyO duid && !truthyO did then
    M.fail "Update must contain either dataset_id or dataset_uid"
  else
    M.bind (if truthyO did then
        M.bind (M.net (.resolveId (did.getD (.str "")))
            (env.resolve (did.getD (.str "")))) (fun u => M.pure (JVal.str u))
      else M.pure (duid.getD (.str "")))
    (fun uidv =>
      let uid := uidv.pyStr
      M.catchOut (tryBody env pub uid update)
        (fun fu => (uid, UpdOut.success fu))
        (fun e => (uid, UpdOut.failure e)))

/-- The spec loop of `bulk_update_metadata_async` (`bulk.py:137-181`),
accumulating the keyed results dict. -/
def bulkUpdateLoop (env : UpdateEnv) (pub : Bool) :
    List Spec → List (String × UpdOut) → M (List (String × UpdOut))
  | [], results => M.pure results
  | u :: rest, results =>
    M.bind (processUpdate env pub u) (fun r =>
      bulkUpdateLoop env pub rest (aset results r.1 r.2))

/-- `bulk_update_metadata_async` (`bulk.py:97-189`). -/
def bulk_update_metadata_async (env : UpdateEnv) (updates : List Spec)
    (pub : Bool) : M (List (String × UpdOut)) :=
  bulkUpdateLoop env pub updates []

/-- `bulk_update_metadata` (`bulk.py:266-287`) delegates to the async
variant via `asyncio.run`. -/
def bulk_update_metadata (env : UpdateEnv) (updates : List Spec)
    (pub : Bool) : M (List (String × UpdOut)) :=
  bulk_update_metadata_async env updates pub

/-- The conditions under which one spec reaches the per-spec `try`
block: the truthiness validation passes and, when the numeric-id path
is taken, the resolution call does not raise. -/
def specPrechecks (env : UpdateEnv) (update : Spec) : Prop :=
  ¬(truthyO (alookup update "dataset_uid") = true ∧
      truthyO (alookup update "dataset_id") = true) ∧
  (truthyO (alookup update "dataset_uid") = true ∨
      truthyO (alookup update "dataset_id") = true) ∧
  (truthyO (alookup update "dataset_id") = true →
      ∃ s, env.resolve ((alookup update "dataset_id").getD (.str "")) =
        Except.ok s)

/-- The uid a spec is recorded under once its prechecks pass: the
resolved uid on the numeric-id path, else `str()` of the supplied
`dataset_uid` value. -/
def specUid (env : UpdateEnv) (update : Spec) : String :=
  if truthyO (alookup update "dataset_id") then
    match env.resolve ((alookup update "dataset_id").getD (.str "")) with
    | Except.ok s => s
    | Except.error _ => ""
  else ((alookup update "dataset_uid").getD (.str "")).pyStr

/-- The outcome recorded for a spec whose prechecks pass: the caught
result of its `try` body. -/
def specOutcome (env : UpdateEnv) (pub : Bool) (update : Spec) : UpdOut :=
  match (tryBody env pub (specUid env update) update).1 with
  | Except.ok fu => UpdOut.success fu
  | Except.error e => UpdOut.failure e

/-- `HuwiseDataset._wait_for_idle` (`dataset.py:90-98`): poll the
status endpoint; stop on `"idle"`, else sleep three seconds and poll
again, with no iteration bound.  The argument list is the sequence of
statuses the remote returns to successive polls; the result is the
request trace of the loop, or `none` when the given status sequence is
exhausted without an `"idle"` — i.e. the loop is still running after
consuming that whole sequence. -/
def wait_for_idle (uid : String) : List String → Option (List Call)
  | [] => none
  | s :: rest =>
    if s = "idle" then some [.statusGet uid]
    else (wait_for_idle uid rest).map
      (fun l => .statusGet uid :: .sleepSec 3 :: l)

/-- `HuwiseDataset._set_metadata_value` (`dataset.py:117-148`): wait
for idle, then PUT `{value}` to the per-field endpoint, then publish
when requested.  The result is the full request trace, or `none` when
the idle-wait has not terminated on the given status sequence. -/
def set_metadata_value (uid tmpl fld : String) (v : JVal) (pub : Bool)
    (statuses : List String) : Option (List Call) :=
  (wait_for_idle uid statuses).map (fun polls =>
    polls ++ [.putField uid tmpl fld v] ++ (if pub then [.publish uid] else []))

/-- The trace of a terminating idle-wait whose first `n` polls saw a
non-idle status: `n + 1` status GETs separated by three-second
sleeps. -/
def pollLoopTrace (uid : String) : Nat → List Call
  | 0 => [.statusGet uid]
  | n + 1 => .statusGet uid :: .sleepSec 3 :: pollLoopTrace uid n

/-- Result of one call attempt as seen by the `retry` decorator
(`http.py:37-76`): a return value, an exception in
`exceptions_to_check` (caught and retried), or any other exception
(propagates immediately). -/
inductive Att (α : Type) where
  | ok (a : α)
  | retryable (e : Er)
  | fatal (e : Er)

/-- Outcome of the decorated call on a bare (uncaught) attempt. -/
def attResult : Att α → Except Er α
  | .ok a => Except.ok a
  | .retryable e => Except.error e
  | .fatal e => Except.error e

/-- One run of the decorated function: its return value or the
propagated exception, the number of attempts made, and the sleep
durations between attempts, in order. -/
structure RetryRun (α : Type) where
  result : Except Er α
  attempts : Nat
  sleeps : List ℚ

/-- The `while mtries > 1` loop of the `retry` decorator
(`http.py:57-72`): up to `mtries - 1` guarded attempts, sleeping
`mdelay` after each caught failure and multiplying `mdelay` by
`backoff`, then one final unguarded attempt.  `attempt j` is the
outcome of the `j`-th call of the wrapped function. -/
def retryLoop (attempt : Nat → Att α) (backoff : ℚ) :
    Nat → Nat → ℚ → RetryRun α
  | k, 0, _ => ⟨attResult (attempt k), 1, []⟩
  | k, 1, _ => ⟨attResult (attempt k), 1, []⟩
  | k, m + 2, mdelay =>
    match attempt k with
    | .ok a => ⟨Except.ok a, 1, []⟩
    | .fatal e => ⟨Except.error e, 1, []⟩
    | .retryable _ =>
      let r := retryLoop attempt backoff (k + 1) (m + 1) (mdelay * backoff)
      ⟨r.result, r.attempts + 1, mdelay :: r.sleeps⟩

/-- The `retry(exceptions_to_check, tries, delay, backoff)` decorator
(`http.py:37-76`) applied to a call whose successive attempts behave
as `attempt`. -/
def retry (tries : Nat) (delay backoff : ℚ) (attempt : Nat → Att α) :
    RetryRun α :=
  retryLoop attempt backoff 0 tries delay

/-- The retry configuration every `HttpClient` method uses:
`@retry(HTTP_ERRORS_TO_RETRY, tries=6, delay=5, backoff=1)`
(`http.py:102,122,139,156,173`). -/
def httpClientRetry (attempt : Nat → Att α) : RetryRun α :=
  retry 6 5 1 attempt

/-- One page of `GET /datasets/?limit=...`: the `results` entries as
`(dataset_id, is_restricted)` pairs, and whether a truthy `next` link
is present. -/
structure Page where
  results : List (String × Bool)
  nextLink : Bool
deriving DecidableEq

/-- The identifiers contributed by one page under the
`include_restricted` flag (`bulk.py:379-382`). -/
def filteredIds (includeRestricted : Bool) (rs : List (String × Bool)) :
    List String :=
  if includeRestricted then rs.map Prod.fst
  else (rs.filter (fun r => !r.2)).map Prod.fst

/-- Python truthiness of the `max_datasets : int | None` parameter as
tested by `if max_datasets and len(all_ids) >= max_datasets:`
(`bulk.py:330,384`): `None` and `0` are both falsy. -/
def maxTruthy : Option Nat → Bool
  | none => false
  | some n => !(n == 0)

/-- The pagination loop of `bulk_get_dataset_ids` (`bulk.py:371-391`):
break on an empty `results`, else accumulate, truncate and break once
`max_datasets` is truthy and reached, break when `next` is absent.
The argument list is the successive pages the server returns. -/
def bulkIdsLoop (inc : Bool) (maxd : Option Nat) :
    List Page → List String → List String
  | [], allIds => allIds
  | p :: rest, allIds =>
    if p.results.isEmpty then allIds
    else
      let allIds1 := allIds ++ filteredIds inc p.results
      if maxTruthy maxd && decide (maxd.getD 0 ≤ allIds1.length) then
        allIds1.take (maxd.getD 0)
      else if !p.nextLink then allIds1
      else bulkIdsLoop inc maxd rest allIds1

/-- The pagination loop of `bulk_get_dataset_ids_async`
(`bulk.py:317-339`): identical except that there is no empty-`results`
break — an empty page is accumulated (contributing nothing) and the
loop follows the `next` link. -/
def bulkIdsLoopAsync (inc : Bool) (maxd : Option Nat) :
    List Page → List String → List String
  | [], allIds => allIds
  | p :: rest, allIds =>
    let allIds1 := allIds ++ filteredIds inc p.results
    if maxTruthy maxd && decide (maxd.getD 0 ≤ allIds1.length) then
      allIds1.take (maxd.getD 0)
    else if !p.nextLink then allIds1
    else bulkIdsLoopAsync inc maxd rest allIds1

/-- The code-point sequence of a string; Python compares strings
lexicographically by code point. -/
def strKey (s : String) : List Nat := s.data.map Char.toNat

/-- The string order used by Python `list.sort()` on `str` values
(lexicographic by code point). -/
def pyLe (a b : String) : Prop := strKey a ≤ strKey b

instance : DecidableRel pyLe := fun a b =>
  inferInstanceAs (Decidable (strKey a ≤ strKey b))

instance : IsTotal String pyLe := ⟨fun a b => le_total (strKey a) (strKey b)⟩

instance : IsTrans String pyLe :=
  ⟨fun _ _ _ hab hbc => le_trans hab hbc⟩

/-- `all_ids.sort()` (`bulk.py:341,393`): sort ascending in the Python
string order.  A sort by a total transitive relation has a unique
sorted stable result, so insertion sort is a faithful model of
CPython's sort here. -/
def pySort (l : List String) : List String := List.insertionSort pyLe l

/-- `bulk_get_dataset_ids` (`bulk.py:346-395`): accumulate ids over the
pages, then return them sorted ascending. -/
def bulk_get_dataset_ids (pages : List Page) (inc : Bool)
    (maxd : Option Nat) : List String :=
  pySort (bulkIdsLoop inc maxd pages [])

/-- `bulk_get_dataset_ids_async` (`bulk.py:295-343`). -/
def bulk_get_dataset_ids_async (pages : List Page) (inc : Bool)
    (maxd : Option Nat) : List String :=
  pySort (bulkIdsLoopAsync inc maxd pages [])

/-- The total number of identifiers the paginated collection offers
after restricted-filtering. -/
def pageTotal (inc : Bool) (pages : List Page) : Nat :=
  (pages.map (fun p => (filteredIds inc p.results).length)).sum

/-- A well-formed pagination: every non-final page has a nonempty
`results` list and a `next` link, and the final page has no `next`
link. -/
def wfPages (pages : List Page) : Prop :=
  (∀ p ∈ pages.dropLast, p.results ≠ [] ∧ p.nextLink = true) ∧
  (∀ p, pages.getLast? = some p → p.nextLink = false)

/-- A concrete update environment in which every remote call succeeds,
used to exhibit the truthiness behaviour of bulk update. -/
def truthyDemoEnv : UpdateEnv where
  resolve := fun _ => Except.ok "uX"
  fetchMeta := fun _ => Except.ok []
  putMeta := fun _ _ => Except.ok ()
  publishOp := fun _ => Except.ok ()

/-- The id the uid-to-id reverse map holds for a given uid: the last
element of the id list resolving to that uid. -/
def lastResolved (ru : String → String) : List String → String → Option String
  | [], _ => none
  | i :: rest, u =>
    match lastResolved ru rest u with
    | some j => some j
    | none => if ru i = u then some i else none

/-- The key set of the keyed result mapping, or `[]` when the call
raised. -/
def okKeys (x : Except Er (List (String × FetchOut))) : List String :=
  match x with
  | Except.ok res => keys res
  | Except.error _ => []

/-- A fetch environment in which resolution is injective and every
metadata fetch fails with a captured request error. -/
def allFailFetchEnv : FetchEnv where
  resolve := fun i => Except.ok ("u" ++ i)
  fetchMeta := fun _ => FetchRes.reqFail "boom"

/-- A fetch environment in which every numeric id resolves to the same
uid. -/
def collidingFetchEnv : FetchEnv where
  resolve := fun _ => Except.ok "u"
  fetchMeta := fun _ => FetchRes.ok []

/-- A fetch environment in which every id resolves to one shared uid,
used to instantiate the collision behaviour. -/
def collidingFetchEnv2 : FetchEnv where
  resolve := fun _ => Except.ok "u"
  fetchMeta := fun _ => FetchRes.ok []

/-- A spec that violates the truthiness-based identifier validation of
bulk update: both identifiers truthy, or neither. -/
def specViolation (u : Spec) : Prop :=
  (truthyO (alookup u "dataset_uid") = true ∧
    truthyO (alookup u "dataset_id") = true) ∨
  (truthyO (alookup u "dataset_uid") = false ∧
    truthyO (alookup u "dataset_id") = false)

/-- The ValueError message the violating spec raises. -/
def violationMsg (u : Spec) : Er :=
  if truthyO (alookup u "dataset_uid") && truthyO (alookup u "dataset_id")
  then "Update contains both dataset_id and dataset_uid"
  else "Update must contain either dataset_id or dataset_uid"

/-- The field object stored for field `k` in the default template. -/
def fieldObj (md : Metadata) (k : String) : Option FieldObj :=
  (alookup md "default").bind (fun t => alookup t k)

/-- The `{value}` payload stored for field `k` in the default
template. -/
def fieldValue (md : Metadata) (k : String) : Option JVal :=
  (fieldObj md k).bind (fun fo => alookup fo "value")

/-- The spec keys other than the two identifier keys, in spec order:
exactly the fields bulk update writes. -/
def nonIdentKeys (u : Spec) : List String :=
  (u.map Prod.fst).filter
    (fun k => !(k == "dataset_uid" || k == "dataset_id"))

/-- An update environment in which the fetch of uid "ub" raises and
everything else succeeds. -/
def isolationDemoEnv : UpdateEnv where
  resolve := fun _ => Except.ok "uz"
  fetchMeta := fun uid =>
    if uid = "ub" then Except.error "fetch boom" else Except.ok []
  putMeta := fun _ _ => Except.ok ()
  publishOp := fun _ => Except.ok ()

/-- An update environment in which every identifier resolution call
raises. -/
def resolveFailEnv : UpdateEnv where
  resolve := fun _ => Except.error "resolve boom"
  fetchMeta := fun _ => Except.ok []
  putMeta := fun _ _ => Except.ok ()
  publishOp := fun _ => Except.ok ()

/-- An update environment in which every remote call succeeds. -/
def allOkUpdateEnv : UpdateEnv where
  resolve := fun _ => Except.ok "ur"
  fetchMeta := fun _ => Except.ok []
  putMeta := fun _ _ => Except.ok ()
  publishOp := fun _ => Except.ok ()

/-- An update environment, all calls succeeding, for the C3
counterexample. -/
def allOkUpdateEnv2 : UpdateEnv where
  resolve := fun _ => Except.ok "ur"
  fetchMeta := fun _ => Except.ok []
  putMeta := fun _ _ => Except.ok ()
  publishOp := fun _ => Except.ok ()

/-- An update environment whose fetched document has a default
template with an unrelated description field and an unrelated dcat
template. -/
def successDemoEnv : UpdateEnv where
  resolve := fun _ => Except.ok "uz"
  fetchMeta := fun _ => Except.ok
    [("default", [("description", [("value", JVal.str "d")])]),
      ("dcat", [("creator", [("value", JVal.str "c")])])]
  putMeta := fun _ _ => Except.ok ()
  publishOp := fun _ => Except.ok ()

theorem alookup_aset (m : List (String × α)) (k k' : String) (v : α) :
    alookup (aset m k v) k' = if k' = k then some v else alookup m k' := by
  induction m with
  | nil => simp [aset, alookup]
  | cons hd tl ih =>
    obtain ⟨k₀, v₀⟩ := hd
    by_cases h : k = k₀
    · subst h
      by_cases h' : k' = k <;> simp [aset, alookup, h']
    · by_cases h' : k' = k₀
      · subst h'
        simp [aset, alookup, h, Ne.symm h]
      · simp [aset, alookup, h, h', ih]

theorem mem_keys_aset (m : List (String × α)) (k k' : String) (v : α) :
    k' ∈ keys (aset m k v) ↔ k' = k ∨ k' ∈ keys m := by
  induction m with
  | nil => simp [aset, keys]
  | cons hd tl ih =>
    obtain ⟨k₀, v₀⟩ := hd
    by_cases h : k = k₀
    · subst h
      simp [aset, keys]
    · simp only [aset, if_neg h, keys, List.map_cons, List.mem_cons]
      constructor
      · rintro (h' | h')
        · exact Or.inr (Or.inl h')
        · rcases (ih.mp h') with h'' | h''
          · exact Or.inl h''
          · exact Or.inr (Or.inr h'')
      · rintro (h' | h' | h')
        · exact Or.inr (ih.mpr (Or.inl h'))
        · exact Or.inl h'
        · exact Or.inr (ih.mpr (Or.inr h'))

theorem nodup_keys_aset (m : List (String × α)) (k : String) (v : α)
    (h : (keys m).Nodup) : (keys (aset m k v)).Nodup := by
  induction m with
  | nil => simp [aset, keys]
  | cons hd tl ih =>
    obtain ⟨k₀, v₀⟩ := hd
    by_cases hk : k = k₀
    · subst hk
      simpa [aset, keys] using h
    · have h0 : (k₀ :: keys tl).Nodup := by simpa [keys] using h
      have h1 : k₀ ∉ keys tl := (List.nodup_cons.mp h0).1
      have h2 : (keys tl).Nodup := (List.nodup_cons.mp h0).2
      have hs : keys (aset ((k₀, v₀) :: tl) k v) = k₀ :: keys (aset tl k v) := by
        simp [aset, if_neg hk, keys]
      rw [hs, List.nodup_cons]
      refine ⟨?_, ih h2⟩
      intro hmem
      rcases (mem_keys_aset tl k k₀ v).mp hmem with h' | h'
      · exact hk h'.symm
      · exact h1 h'

theorem M.bind_pure (a : α) (f : α → M β) : M.bind (M.pure a) f = f a := by
  simp [M.bind, M.pure]

theorem M.bind_net_ok (c : Call) (a : α) (f : α → M β) :
    M.bind (M.net c (Except.ok a)) f = ((f a).1, c :: (f a).2) := by
  simp [M.bind, M.net]

theorem M.bind_net_error (c : Call) (e : Er) (f : α → M β) :
    M.bind (M.net c (Except.error e)) f = (Except.error e, [c]) := by
  simp [M.bind, M.net]

/-! ## Supporting lemmas: idle-wait -/

theorem wait_for_idle_some (uid : String) (statuses : List String)
    (l : List Call) (h : wait_for_idle uid statuses = some l) :
    ∃ n, statuses.get? n = some "idle" ∧
      (∀ m, m < n → statuses.get? m ≠ some "idle") ∧
      l = pollLoopTrace uid n := by
  induction statuses generalizing l with
  | nil => simp [wait_for_idle] at h
  | cons s rest ih =>
    by_cases hs : s = "idle"
    · subst hs
      simp only [wait_for_idle] at h
      rw [if_pos trivial] at h
      injection h with h
      subst h
      exact ⟨0, rfl, by omega, by simp [pollLoopTrace]⟩
    · simp only [wait_for_idle, if_neg hs] at h
      rcases Option.map_eq_some'.mp h with ⟨l', hl', rfl⟩
      rcases ih l' hl' with ⟨n, hn, hfirst, rfl⟩
      refine ⟨n + 1, hn, ?_, rfl⟩
      intro m hm
      match m with
      | 0 => simpa using fun he => hs he
      | m' + 1 => exact hfirst m' (by omega)

theorem wait_for_idle_replicate (uid : String) (k : Nat) :
    wait_for_idle uid (List.replicate k "processing") = none := by
  induction k with
  | zero => simp [wait_for_idle]
  | succ k ih =>
    have : ("processing" : String) ≠ "idle" := by decide
    simp [List.replicate, wait_for_idle, this, ih]

/-- C4: a single-resource field write never issues its PUT before a
status poll has returned "idle": on the status sequence
["processing", "processing", "idle"] exactly three status GETs occur
before the PUT; in general the trace is first-idle-index + 1 polls
(each non-idle poll followed by a fixed three-second sleep) and then
the PUT; and on any all-"processing" status sequence, of any length,
the loop is still polling — there is no maximum iteration count. -/
theorem set_metadata_value_idle_gating :
    (∀ (uid tmpl fld : String) (v : JVal),
      set_metadata_value uid tmpl fld v true
          ["processing", "processing", "idle"] =
        some [Call.statusGet uid, Call.sleepSec 3, Call.statusGet uid,
          Call.sleepSec 3, Call.statusGet uid, Call.putField uid tmpl fld v,
          Call.publish uid]) ∧
    (∀ (uid tmpl fld : String) (v : JVal) (pub : Bool)
        (statuses : List String) (tr : List Call),
      set_metadata_value uid tmpl fld v pub statuses = some tr →
      ∃ n, statuses.get? n = some "idle" ∧
        (∀ m, m < n → statuses.get? m ≠ some "idle") ∧
        tr = pollLoopTrace uid n ++ [Call.putField uid tmpl fld v] ++
          (if pub then [Call.publish uid] else [])) ∧
    (∀ (uid tmpl fld : String) (v : JVal) (pub : Bool) (k : Nat),
      set_metadata_value uid tmpl fld v pub (List.replicate k "processing") =
        none) := by
  refine ⟨?_, ?_, ?_⟩
  · intro uid tmpl fld v
    rfl
  · intro uid tmpl fld v pub statuses tr h
    unfold set_metadata_value at h
    rcases Option.map_eq_some'.mp h with ⟨polls, hp, rfl⟩
    rcases wait_for_idle_some uid statuses polls hp with ⟨n, hn, hfirst, rfl⟩
    exact ⟨n, hn, hfirst, rfl⟩
  · intro uid tmpl fld v pub k
    simp [set_metadata_value, wait_for_idle_replicate]

/-- Witness for the general gating clause of C4, at the simulated
status sequence from the spec. -/
theorem set_metadata_value_idle_gating_witness :
    ∃ n, (["processing", "processing", "idle"] : List String).get? n =
        some "idle" ∧
      (∀ m, m < n →
        (["processing", "processing", "idle"] : List String).get? m ≠
          some "idle") ∧
      ([Call.statusGet "u", Call.sleepSec 3, Call.statusGet "u",
          Call.sleepSec 3, Call.statusGet "u",
          Call.putField "u" "default" "title" (JVal.str "X"),
          Call.publish "u"] : List Call) =
        pollLoopTrace "u" n ++
          [Call.putField "u" "default" "title" (JVal.str "X")] ++
          (if true then [Call.publish "u"] else []) :=
  set_metadata_value_idle_gating.2.1 "u" "default" "title" (JVal.str "X")
    true ["processing", "processing", "idle"] _ rfl

/-- C6: with both identifier lists supplied, or neither, both bulk
fetch variants and the single-identifier validator raise a ValueError
before any network call: the request trace is empty. -/
theorem bulk_fetch_validation_before_network :
    (∀ (env : FetchEnv) (ids uids : List String),
      bulk_get_metadata env (some ids) (some uids) =
        (Except.error "dataset_ids and dataset_uids are mutually exclusive",
          [])) ∧
    (∀ (env : FetchEnv),
      bulk_get_metadata env none none =
        (Except.error "Either dataset_ids or dataset_uids must be specified",
          [])) ∧
    (∀ (env : FetchEnv) (ids uids : List String),
      bulk_get_metadata_async env (some ids) (some uids) =
        (Except.error "dataset_ids and dataset_uids are mutually exclusive",
          [])) ∧
    (∀ (env : FetchEnv),
      bulk_get_metadata_async env none none =
        (Except.error "Either dataset_ids or dataset_uids must be specified",
          [])) ∧
    (∀ (resolve : String → Except Er String) (i u : String),
      validate_dataset_identifier resolve (some i) (some u) =
        (Except.error "dataset_id and dataset_uid are mutually exclusive",
          [])) ∧
    (∀ (resolve : String → Except Er String),
      validate_dataset_identifier resolve none none =
        (Except.error "Either dataset_id or dataset_uid must be specified",
          [])) :=
  ⟨fun _ _ _ => rfl, fun _ => rfl, fun _ _ _ => rfl, fun _ => rfl,
    fun _ _ _ => rfl, fun _ => rfl⟩

/-- C9: bulk update tests identifier presence by Python truthiness,
not key presence: a spec whose dataset_uid is the empty string raises
the "must contain either" ValueError (for any environment, with no
network call); a spec carrying both identifier keys, one of them
falsy, passes validation as if only one were given (shown in both
directions on a concrete environment); the single-identifier
validator instead tests with `is not None`, accepting an empty string
as a supplied identifier and rejecting two supplied identifiers even
when one is empty. -/
theorem bulk_update_truthiness_validation :
    (∀ (env : UpdateEnv) (pub : Bool) (v : JVal),
      processUpdate env pub [("dataset_uid", JVal.str ""), ("title", v)] =
        (Except.error "Update must contain either dataset_id or dataset_uid",
          [])) ∧
    (processUpdate truthyDemoEnv true
        [("dataset_uid", JVal.str ""), ("dataset_id", JVal.str "1"),
          ("title", JVal.str "T")] =
      (Except.ok ("uX", UpdOut.success ["title"]),
        [Call.resolveId (JVal.str "1"), Call.getMeta "uX",
          Call.putMeta "uX"
            [("default", [("title", [("value", JVal.str "T")])])],
          Call.publish "uX"])) ∧
    (processUpdate truthyDemoEnv true
        [("dataset_uid", JVal.str "u7"), ("dataset_id", JVal.str ""),
          ("title", JVal.str "T")] =
      (Except.ok ("u7", UpdOut.success ["title"]),
        [Call.getMeta "u7",
          Call.putMeta "u7"
            [("default", [("title", [("value", JVal.str "T")])])],
          Call.publish "u7"])) ∧
    (∀ (resolve : String → Except Er String),
      validate_dataset_identifier resolve none (some "") =
        (Except.ok "", [])) ∧
    (∀ (resolve : String → Except Er String),
      validate_dataset_identifier resolve (some "") (some "x") =
        (Except.error "dataset_id and dataset_uid are mutually exclusive",
          [])) :=
  ⟨fun _ _ _ => rfl, rfl, rfl, fun _ => rfl, fun _ => rfl⟩

/-! ## Supporting lemmas: retry -/

theorem retryLoop_attempts_le (attempt : Nat → Att α) (backoff : ℚ) :
    ∀ (mtries k : Nat) (mdelay : ℚ),
      (retryLoop attempt backoff k mtries mdelay).attempts ≤ max mtries 1 := by
  intro mtries
  induction mtries using Nat.strong_induction_on with
  | _ mtries ih =>
    intro k mdelay
    match mtries with
    | 0 => simp [retryLoop]
    | 1 => simp [retryLoop]
    | m + 2 =>
      simp only [retryLoop]
      cases attempt k with
      | ok a => simp
      | fatal e => simp
      | retryable e =>
        have := ih (m + 1) (by omega) (k + 1) (mdelay * backoff)
        simp only [max_eq_left (by omega : 1 ≤ m + 2)]
        simp only [max_eq_left (by omega : 1 ≤ m + 1)] at this
        omega

theorem retryLoop_first_success (attempt : Nat → Att α) (backoff : ℚ)
    (a : α) :
    ∀ (i mtries k : Nat) (mdelay : ℚ),
      (∀ j, j < i → ∃ e, attempt (k + j) = Att.retryable e) →
      attempt (k + i) = Att.ok a →
      i + 1 ≤ max mtries 1 →
      (retryLoop attempt backoff k mtries mdelay).result = Except.ok a ∧
      (retryLoop attempt backoff k mtries mdelay).attempts = i + 1 := by
  intro i
  induction i with
  | zero =>
    intro mtries k mdelay _ hok _
    rw [Nat.add_zero] at hok
    match mtries with
    | 0 => simp [retryLoop, hok, attResult]
    | 1 => simp [retryLoop, hok, attResult]
    | m + 2 => simp [retryLoop, hok]
  | succ i' ih =>
    intro mtries k mdelay hfail hok hle
    match mtries with
    | 0 => exact absurd hle (by omega)
    | 1 => exact absurd hle (by omega)
    | m + 2 =>
      obtain ⟨e, he⟩ := hfail 0 (by omega)
      rw [Nat.add_zero] at he
      simp only [retryLoop, he]
      have hrec := ih (m + 1) (k + 1) (mdelay * backoff)
        (fun j hj => by
          have := hfail (j + 1) (by omega)
          rwa [show k + (j + 1) = k + 1 + j by omega] at this)
        (by rwa [show k + 1 + i' = k + (i' + 1) by omega])
        (by rw [max_eq_left (by omega : 1 ≤ m + 2)] at hle
            rw [max_eq_left (by omega : 1 ≤ m + 1)]
            omega)
      exact ⟨hrec.1, by rw [hrec.2]⟩

theorem retryLoop_all_retryable (attempt : Nat → Att α) (backoff : ℚ)
    (es : Nat → Er) :
    ∀ (mtries k : Nat) (mdelay : ℚ),
      (∀ j, j < max mtries 1 → attempt (k + j) = Att.retryable (es (k + j))) →
      retryLoop attempt backoff k mtries mdelay =
        ⟨Except.error (es (k + (max mtries 1 - 1))), max mtries 1,
          (List.range (max mtries 1 - 1)).map (fun j => mdelay * backoff ^ j)⟩ := by
  intro mtries
  induction mtries using Nat.strong_induction_on with
  | _ mtries ih =>
    intro k mdelay hall
    match mtries with
    | 0 =>
      have h0 := hall 0 (by simp)
      simp only [retryLoop, Nat.add_zero] at h0 ⊢
      simp [h0, attResult]
    | 1 =>
      have h0 := hall 0 (by simp)
      simp only [retryLoop, Nat.add_zero] at h0 ⊢
      simp [h0, attResult]
    | m + 2 =>
      have h0 := hall 0 (by rw [max_eq_left (by omega : 1 ≤ m + 2)]; omega)
      rw [Nat.add_zero] at h0
      have hrec := ih (m + 1) (by omega) (k + 1) (mdelay * backoff)
        (fun j hj => by
          rw [max_eq_left (by omega : 1 ≤ m + 1)] at hj
          have := hall (j + 1)
            (by rw [max_eq_left (by omega : 1 ≤ m + 2)]; omega)
          rwa [show k + (j + 1) = k + 1 + j by omega] at this)
      simp only [retryLoop, h0, hrec]
      rw [max_eq_left (by omega : 1 ≤ m + 1), max_eq_left (by omega : 1 ≤ m + 2)]
      congr 1
      · rw [show k + 1 + (m + 1 - 1) = k + (m + 2 - 1) by omega]
      · rw [show m + 2 - 1 = (m + 1 - 1) + 1 by omega,
          List.range_succ_eq_map, List.map_cons, List.map_map]
        refine congrArg₂ _ (by ring) (List.map_congr_left ?_)
        intro j _
        simp only [Function.comp, Nat.succ_eq_add_one, pow_succ]
        ring

/-- C5: the gateway retry policy.  For any sequence of attempt
outcomes: (1) at most `tries` attempts are made (at least one even for
degenerate `tries`); (2) if the first success comes at attempt `i`
within the budget, its response is returned immediately after exactly
`i + 1` attempts; (3) if every attempt within the budget fails with a
retryable error, exactly `max tries 1` attempts are made, the sleep
before retry `j` is `delay * backoff ^ j` (delay multiplied by the
backoff factor after each failed attempt), and the final attempt's
exception propagates to the caller; (4) every `HttpClient` method is
configured with `tries = 6`, `delay = 5`, `backoff = 1`. -/
theorem retry_policy :
    (∀ (α : Type) (attempt : Nat → Att α) (tries : Nat) (delay backoff : ℚ),
      (retry tries delay backoff attempt).attempts ≤ max tries 1) ∧
    (∀ (α : Type) (attempt : Nat → Att α) (tries : Nat) (delay backoff : ℚ)
        (i : Nat) (a : α),
      (∀ j, j < i → ∃ e, attempt j = Att.retryable e) →
      attempt i = Att.ok a →
      i + 1 ≤ max tries 1 →
      (retry tries delay backoff attempt).result = Except.ok a ∧
      (retry tries delay backoff attempt).attempts = i + 1) ∧
    (∀ (α : Type) (attempt : Nat → Att α) (tries : Nat) (delay backoff : ℚ)
        (es : Nat → Er),
      (∀ j, j < max tries 1 → attempt j = Att.retryable (es j)) →
      (retry tries delay backoff attempt).result =
          Except.error (es (max tries 1 - 1)) ∧
      (retry tries delay backoff attempt).attempts = max tries 1 ∧
      (retry tries delay backoff attempt).sleeps =
        (List.range (max tries 1 - 1)).map (fun j => delay * backoff ^ j)) ∧
    (∀ (α : Type) (attempt : Nat → Att α),
      httpClientRetry attempt = retry 6 5 1 attempt) := by
  refine ⟨?_, ?_, ?_, ?_⟩
  · intro α attempt tries delay backoff
    exact retryLoop_attempts_le attempt backoff tries 0 delay
  · intro α attempt tries delay backoff i a hfail hok hle
    exact retryLoop_first_success attempt backoff a i tries 0 delay
      (by simpa using hfail) (by simpa using hok) hle
  · intro α attempt tries delay backoff es hall
    have hch := retryLoop_all_retryable attempt backoff es tries 0 delay
      (by simpa using hall)
    simp only [retry]
    rw [hch]
    exact ⟨by simp, rfl, rfl⟩
  · intro α attempt
    rfl

/-- Witness for C5: with six attempts configured, a single retryable
failure followed by a success returns the success at the second
attempt; and six consecutive retryable failures propagate the final
exception after six attempts with five constant five-second sleeps
(the configured backoff factor is 1). -/
theorem retry_policy_witness :
    ((retry 6 5 1 (fun j => if j = 0 then Att.retryable "reset"
        else Att.ok 42)).result = Except.ok 42 ∧
      (retry 6 5 1 (fun j => if j = 0 then Att.retryable "reset"
        else Att.ok 42)).attempts = 1 + 1) ∧
    ((retry 6 5 1 (fun _ => (Att.retryable "timeout" : Att Nat))).result =
        Except.error "timeout" ∧
      (retry 6 5 1 (fun _ => (Att.retryable "timeout" : Att Nat))).attempts =
        max 6 1 ∧
      (retry 6 5 1 (fun _ => (Att.retryable "timeout" : Att Nat))).sleeps =
        (List.range (max 6 1 - 1)).map (fun j => (5 : ℚ) * 1 ^ j)) := by
  constructor
  · exact retry_policy.2.1 Nat
      (fun j => if j = 0 then Att.retryable "reset" else Att.ok 42)
      6 5 1 1 42
      (fun j hj => ⟨"reset", by
        have hj0 : j = 0 := by omega
        subst hj0
        rfl⟩)
      rfl
      (by norm_num)
  · exact retry_policy.2.2.1 Nat
      (fun _ => (Att.retryable "timeout" : Att Nat)) 6 5 1
      (fun _ => "timeout") (fun j _ => rfl)

/-! ## Supporting lemmas: bulk fetch -/

theorem M.fst_bind_ok (x : M α) (f : α → M β) (v : α)
    (h : x.1 = Except.ok v) : (M.bind x f).1 = (f v).1 := by
  obtain ⟨x1, x2⟩ := x
  subst h
  rfl

theorem M.fst_bind_error (x : M α) (f : α → M β) (e : Er)
    (h : x.1 = Except.error e) : (M.bind x f).1 = Except.error e := by
  obtain ⟨x1, x2⟩ := x
  subst h
  rfl

theorem resolveIds_fst (env : FetchEnv) (ru : String → String) :
    ∀ (ids uacc : List String) (macc : List (String × String)),
      (∀ i ∈ ids, env.resolve i = Except.ok (ru i)) →
      (resolveIds env ids uacc macc).1 =
        Except.ok (uacc ++ ids.map ru,
          ids.foldl (fun m i => aset m (ru i) i) macc) := by
  intro ids
  induction ids with
  | nil => intro uacc macc _; simp [resolveIds, M.pure]
  | cons i rest ih =>
    intro uacc macc h
    have hi : env.resolve i = Except.ok (ru i) := h i (by simp)
    simp only [resolveIds, hi, M.bind_net_ok]
    have hrec := ih (uacc ++ [ru i]) (aset macc (ru i) i)
      (fun j hj => h j (List.mem_cons_of_mem _ hj))
    simpa [List.append_assoc] using hrec

theorem fetchSeq_fst (env : FetchEnv) (idToUid : List (String × String)) :
    ∀ (uids : List String) (res : List (String × FetchOut)),
      (fetchSeq env idToUid uids res).1 =
        Except.ok (uids.foldl (fun r uid =>
          aset r ((alookup idToUid uid).getD uid)
            (seqOutcome (env.fetchMeta uid))) res) := by
  intro uids
  induction uids with
  | nil => intro res; rfl
  | cons uid rest ih =>
    intro res
    exact ih (aset res ((alookup idToUid uid).getD uid)
      (seqOutcome (env.fetchMeta uid)))

theorem gatherFetch_fst (env : FetchEnv) :
    ∀ uids : List String,
      (gatherFetch env uids).1 = Except.ok (uids.map env.fetchMeta) := by
  intro uids
  induction uids with
  | nil => rfl
  | cons uid rest ih =>
    exact M.fst_bind_ok (gatherFetch env rest)
      (fun frs => M.pure (env.fetchMeta uid :: frs)) _ ih

theorem assembleAsync_fst (idToUid : List (String × String)) :
    ∀ (pairs : List (String × FetchRes)) (res : List (String × FetchOut)),
      (∀ x ∈ pairs, ∀ e, x.2 ≠ FetchRes.parseFail e) →
      (assembleAsync idToUid pairs res).1 =
        Except.ok (pairs.foldl (fun r x =>
          aset r ((alookup idToUid x.1).getD x.1) (seqOutcome x.2)) res) := by
  intro pairs
  induction pairs with
  | nil => intro res _; rfl
  | cons x rest ih =>
    intro res hnp
    obtain ⟨uid, fr⟩ := x
    cases fr with
    | ok md =>
      exact ih _ (fun y hy => hnp y (List.mem_cons_of_mem _ hy))
    | reqFail e =>
      exact ih _ (fun y hy => hnp y (List.mem_cons_of_mem _ hy))
    | parseFail e =>
      exact absurd rfl (hnp (uid, FetchRes.parseFail e) (by simp) e)

theorem zip_self_map {α β : Type} (f : α → β) :
    ∀ l : List α, l.zip (l.map f) = l.map (fun a => (a, f a)) := by
  intro l
  induction l with
  | nil => rfl
  | cons a l ih =>
    show (a, f a) :: l.zip (l.map f) = _
    rw [ih]
    rfl

theorem lastResolved_mem (ru : String → String) :
    ∀ (ids : List String) (u j : String),
      lastResolved ru ids u = some j → j ∈ ids ∧ ru j = u := by
  intro ids
  induction ids with
  | nil => intro u j h; simp [lastResolved] at h
  | cons i rest ih =>
    intro u j h
    simp only [lastResolved] at h
    cases hrec : lastResolved ru rest u with
    | some j' =>
      rw [hrec] at h
      injection h with h
      subst h
      rcases ih u j' hrec with ⟨hm, hr⟩
      exact ⟨List.mem_cons_of_mem _ hm, hr⟩
    | none =>
      rw [hrec] at h
      by_cases hiu : ru i = u
      · rw [if_pos hiu] at h
        injection h with h
        subst h
        exact ⟨List.mem_cons_self _ _, hiu⟩
      · rw [if_neg hiu] at h
        exact absurd h (by simp)

theorem lastResolved_isSome (ru : String → String) :
    ∀ (ids : List String) (i : String), i ∈ ids →
      ∃ j, lastResolved ru ids (ru i) = some j := by
  intro ids
  induction ids with
  | nil => intro i h; simp at h
  | cons a rest ih =>
    intro i hi
    simp only [lastResolved]
    cases hrec : lastResolved ru rest (ru i) with
    | some j => exact ⟨j, rfl⟩
    | none =>
      rcases List.mem_cons.mp hi with rfl | hi'
      · exact ⟨i, by rw [if_pos rfl]⟩
      · rcases ih i hi' with ⟨j, hj⟩
        rw [hrec] at hj
        exact absurd hj (by simp)

theorem getLast?_cons_match (a : α) (l : List α) :
    (a :: l).getLast? =
      match l.getLast? with
      | some x => some x
      | none => some a := by
  induction l generalizing a with
  | nil => rfl
  | cons b l' ih =>
    rw [List.getLast?_cons_cons, ih b]
    cases hl : l'.getLast? <;> simp [hl]

theorem lastResolved_eq_getLast_filter (ru : String → String) :
    ∀ (ids : List String) (u : String),
      lastResolved ru ids u =
        (ids.filter (fun j => ru j == u)).getLast? := by
  intro ids
  induction ids with
  | nil => intro u; rfl
  | cons i rest ih =>
    intro u
    simp only [lastResolved, List.filter_cons]
    by_cases hiu : ru i = u
    · rw [if_pos (show (ru i == u) = true by simpa using hiu),
        getLast?_cons_match, ← ih u]
      cases lastResolved ru rest u with
      | some j => rfl
      | none => rw [if_pos hiu]
    · rw [if_neg (show ¬(ru i == u) = true by simpa using hiu), ← ih u]
      cases lastResolved ru rest u with
      | some j => rfl
      | none => rw [if_neg hiu]

theorem alookup_resolution_foldl (ru : String → String) :
    ∀ (ids : List String) (macc : List (String × String)) (u : String),
      alookup (ids.foldl (fun m i => aset m (ru i) i) macc) u =
        match lastResolved ru ids u with
        | some j => some j
        | none => alookup macc u := by
  intro ids
  induction ids with
  | nil => intro macc u; rfl
  | cons i rest ih =>
    intro macc u
    simp only [List.foldl_cons, lastResolved]
    rw [ih (aset macc (ru i) i) u]
    cases lastResolved ru rest u with
    | some j => rfl
    | none =>
      rw [alookup_aset]
      by_cases h : u = ru i
      · rw [if_pos h, if_pos h.symm]
      · rw [if_neg h, if_neg (fun hh => h hh.symm)]

theorem alookup_resolution_foldl_nil (ru : String → String)
    (ids : List String) (u : String) :
    alookup (ids.foldl (fun m i => aset m (ru i) i) []) u =
      lastResolved ru ids u := by
  rw [alookup_resolution_foldl ru ids [] u]
  cases lastResolved ru ids u <;> rfl

theorem mem_keys_foldl_aset {β γ : Type} (key : β → String) (out : β → γ) :
    ∀ (l : List β) (res : List (String × γ)) (k : String),
      (k ∈ keys (l.foldl (fun r x => aset r (key x) (out x)) res)) ↔
        ((∃ x ∈ l, key x = k) ∨ k ∈ keys res) := by
  intro l
  induction l with
  | nil => intro res k; simp
  | cons x xs ih =>
    intro res k
    simp only [List.foldl_cons]
    rw [ih, mem_keys_aset]
    constructor
    · rintro (⟨y, hy, rfl⟩ | h | h)
      · exact Or.inl ⟨y, List.mem_cons_of_mem _ hy, rfl⟩
      · exact Or.inl ⟨x, List.mem_cons_self _ _, h.symm⟩
      · exact Or.inr h
    · rintro (⟨y, hy, rfl⟩ | h)
      · rcases List.mem_cons.mp hy with rfl | hy'
        · exact Or.inr (Or.inl rfl)
        · exact Or.inl ⟨y, hy', rfl⟩
      · exact Or.inr (Or.inr h)

theorem nodup_keys_foldl_aset {β γ : Type} (key : β → String) (out : β → γ) :
    ∀ (l : List β) (res : List (String × γ)),
      (keys res).Nodup →
      (keys (l.foldl (fun r x => aset r (key x) (out x)) res)).Nodup := by
  intro l
  induction l with
  | nil => intro res h; exact h
  | cons x xs ih =>
    intro res h
    exact ih _ (nodup_keys_aset _ _ _ h)

theorem bulk_get_metadata_uid_fst (env : FetchEnv) (us : List String) :
    (bulk_get_metadata env none (some us)).1 =
      Except.ok (us.foldl (fun r uid =>
        aset r ((alookup ([] : List (String × String)) uid).getD uid)
          (seqOutcome (env.fetchMeta uid))) []) :=
  fetchSeq_fst env [] us []

theorem bulk_get_metadata_ids_fst (env : FetchEnv) (ids : List String)
    (ru : String → String)
    (hres : ∀ i ∈ ids, env.resolve i = Except.ok (ru i)) :
    (bulk_get_metadata env (some ids) none).1 =
      Except.ok ((ids.map ru).foldl (fun r uid =>
        aset r ((alookup (ids.foldl (fun m i => aset m (ru i) i) []) uid).getD
          uid) (seqOutcome (env.fetchMeta uid))) []) := by
  have h1 := resolveIds_fst env ru ids [] [] hres
  have h2 : (bulk_get_metadata env (some ids) none).1 =
      (M.bind (resolveIds env ids [] [])
        (fun r => fetchSeq env r.2 r.1 [])).1 := rfl
  rw [h2, M.fst_bind_ok _ _ _ h1]
  exact fetchSeq_fst env _ _ []

theorem bulk_get_metadata_async_uid_fst (env : FetchEnv) (us : List String)
    (hnp : ∀ u e, env.fetchMeta u ≠ FetchRes.parseFail e) :
    (bulk_get_metadata_async env none (some us)).1 =
      (bulk_get_metadata env none (some us)).1 := by
  have h2 : (bulk_get_metadata_async env none (some us)).1 =
      (M.bind (gatherFetch env us)
        (fun frs => assembleAsync [] (us.zip frs) [])).1 := rfl
  rw [h2, M.fst_bind_ok _ _ _ (gatherFetch_fst env us)]
  rw [assembleAsync_fst [] (us.zip (us.map env.fetchMeta)) []
    (by
      intro x hx e
      obtain ⟨x1, x2⟩ := x
      rcases List.mem_map.mp ((List.of_mem_zip hx).2) with ⟨u, _, hu⟩
      rw [← hu]
      exact hnp u e)]
  rw [bulk_get_metadata_uid_fst, zip_self_map, List.foldl_map]

theorem bulk_get_metadata_async_ids_fst (env : FetchEnv) (ids : List String)
    (ru : String → String)
    (hres : ∀ i ∈ ids, env.resolve i = Except.ok (ru i))
    (hnp : ∀ u e, env.fetchMeta u ≠ FetchRes.parseFail e) :
    (bulk_get_metadata_async env (some ids) none).1 =
      (bulk_get_metadata env (some ids) none).1 := by
  have h1 := resolveIds_fst env ru ids [] [] hres
  have h2 : (bulk_get_metadata_async env (some ids) none).1 =
      (M.bind (resolveIds env ids [] [])
        (fun r => M.bind (gatherFetch env r.1)
          (fun frs => assembleAsync r.2 (r.1.zip frs) []))).1 := rfl
  rw [h2, M.fst_bind_ok _ _ _ h1]
  have h3 := M.fst_bind_ok (gatherFetch env ([] ++ ids.map ru))
    (fun frs => assembleAsync (ids.foldl (fun m i => aset m (ru i) i) [])
      (([] ++ ids.map ru).zip frs) []) _ (gatherFetch_fst env _)
  rw [h3]
  rw [assembleAsync_fst _ _ []
    (by
      intro x hx e
      obtain ⟨x1, x2⟩ := x
      rcases List.mem_map.mp ((List.of_mem_zip hx).2) with ⟨u, _, hu⟩
      rw [← hu]
      exact hnp u e)]
  rw [bulk_get_metadata_ids_fst env ids ru hres, zip_self_map, List.foldl_map]
  rfl

/-- The key under which a resolved uid is reported in id mode:
`id_to_uid.get(uid, uid)` against the reverse map built during
resolution. -/
theorem idmode_key (ru : String → String) (ids : List String) (i : String)
    (hi : i ∈ ids)
    (hinj : ∀ a ∈ ids, ∀ b ∈ ids, ru a = ru b → a = b) :
    (alookup (ids.foldl (fun m j => aset m (ru j) j) []) (ru i)).getD (ru i) =
      i := by
  rcases lastResolved_isSome ru ids i hi with ⟨j, hj⟩
  rcases lastResolved_mem ru ids (ru i) j hj with ⟨hjm, hjr⟩
  have : j = i := hinj j hjm i hi hjr
  subst this
  rw [alookup_resolution_foldl_nil, hj]
  rfl

/-- C2 (amended): in the sequential bulk fetch, whatever the
per-resource fetch outcomes (request failures and metadata-extraction
failures are both caught per item), the returned mapping's key set
equals the input identifier set with no duplicate keys — in UID mode
unconditionally, in numeric-id mode provided id-to-uid resolution
succeeds and is injective over the submitted ids.  The concurrent
variant satisfies the same two clauses under the additional proviso —
for it alone — that no success response fails metadata extraction,
since that step runs outside its exception-capturing gather. -/
theorem bulk_fetch_key_completeness (env : FetchEnv)
    (us ids : List String) (ru : String → String)
    (hres : ∀ i ∈ ids, env.resolve i = Except.ok (ru i))
    (hinj : ∀ a ∈ ids, ∀ b ∈ ids, ru a = ru b → a = b) :
    (∃ r, (bulk_get_metadata env none (some us)).1 = Except.ok r ∧
      (∀ k, k ∈ keys r ↔ k ∈ us) ∧ (keys r).Nodup) ∧
    (∃ r, (bulk_get_metadata env (some ids) none).1 = Except.ok r ∧
      (∀ k, k ∈ keys r ↔ k ∈ ids) ∧ (keys r).Nodup) ∧
    ((∀ u e, env.fetchMeta u ≠ FetchRes.parseFail e) →
      (∃ r, (bulk_get_metadata_async env none (some us)).1 = Except.ok r ∧
        (∀ k, k ∈ keys r ↔ k ∈ us) ∧ (keys r).Nodup) ∧
      (∃ r, (bulk_get_metadata_async env (some ids) none).1 = Except.ok r ∧
        (∀ k, k ∈ keys r ↔ k ∈ ids) ∧ (keys r).Nodup)) := by
  have huid : ∃ r, (bulk_get_metadata env none (some us)).1 = Except.ok r ∧
      (∀ k, k ∈ keys r ↔ k ∈ us) ∧ (keys r).Nodup := by
    refine ⟨_, bulk_get_metadata_uid_fst env us, ?_, ?_⟩
    · intro k
      rw [mem_keys_foldl_aset
        (fun uid => (alookup ([] : List (String × String)) uid).getD uid)
        (fun uid => seqOutcome (env.fetchMeta uid)) us [] k]
      simp [alookup, keys]
    · exact nodup_keys_foldl_aset _ _ us [] (by simp [keys])
  have hids : ∃ r, (bulk_get_metadata env (some ids) none).1 = Except.ok r ∧
      (∀ k, k ∈ keys r ↔ k ∈ ids) ∧ (keys r).Nodup := by
    refine ⟨_, bulk_get_metadata_ids_fst env ids ru hres, ?_, ?_⟩
    · intro k
      rw [mem_keys_foldl_aset
        (fun uid => (alookup (ids.foldl (fun m i => aset m (ru i) i) [])
          uid).getD uid)
        (fun uid => seqOutcome (env.fetchMeta uid)) (ids.map ru) [] k]
      simp only [keys, List.map_nil, List.mem_nil_iff, or_false]
      constructor
      · rintro ⟨uid, huid', rfl⟩
        rcases List.mem_map.mp huid' with ⟨i, hi, rfl⟩
        rw [idmode_key ru ids i hi hinj]
        exact hi
      · intro hk
        exact ⟨ru k, List.mem_map_of_mem ru hk, idmode_key ru ids k hk hinj⟩
    · exact nodup_keys_foldl_aset _ _ (ids.map ru) [] (by simp [keys])
  refine ⟨huid, hids, ?_⟩
  intro hnp
  constructor
  · rcases huid with ⟨r, hr, hk, hn⟩
    exact ⟨r, (bulk_get_metadata_async_uid_fst env us hnp).trans hr, hk, hn⟩
  · rcases hids with ⟨r, hr, hk, hn⟩
    exact ⟨r,
      (bulk_get_metadata_async_ids_fst env ids ru hres hnp).trans hr, hk, hn⟩

/-- Witness for C2: two UIDs and two injectively-resolved numeric ids,
with every single fetch failing — the key sets still equal the inputs
exactly in both sequential modes, and in both concurrent modes once
the no-extraction-failure proviso holds. -/
theorem bulk_fetch_key_completeness_witness :
    (∃ r, (bulk_get_metadata allFailFetchEnv none (some ["a", "b"])).1 =
        Except.ok r ∧
      (∀ k, k ∈ keys r ↔ k ∈ ["a", "b"]) ∧ (keys r).Nodup) ∧
    (∃ r, (bulk_get_metadata allFailFetchEnv (some ["1", "2"]) none).1 =
        Except.ok r ∧
      (∀ k, k ∈ keys r ↔ k ∈ ["1", "2"]) ∧ (keys r).Nodup) ∧
    ((∀ u e, allFailFetchEnv.fetchMeta u ≠ FetchRes.parseFail e) →
      (∃ r,
        (bulk_get_metadata_async allFailFetchEnv none (some ["a", "b"])).1 =
          Except.ok r ∧
        (∀ k, k ∈ keys r ↔ k ∈ ["a", "b"]) ∧ (keys r).Nodup) ∧
      (∃ r,
        (bulk_get_metadata_async allFailFetchEnv (some ["1", "2"]) none).1 =
          Except.ok r ∧
        (∀ k, k ∈ keys r ↔ k ∈ ["1", "2"]) ∧ (keys r).Nodup)) :=
  bulk_fetch_key_completeness allFailFetchEnv ["a", "b"] ["1", "2"]
    (fun i => "u" ++ i) (fun _ _ => rfl)
    (by decide)

/-- Counterexample to C2 as stated: submitting the numeric ids
["1", "2"] when both resolve to the same uid yields a mapping whose
only key is "2" — the caller-facing key "1" is missing from the result
of both variants, so key-set equality does not hold unconditionally. -/
theorem bulk_fetch_key_completeness_cex :
    okKeys ((bulk_get_metadata collidingFetchEnv (some ["1", "2"]) none).1) =
        ["2"] ∧
    okKeys
        ((bulk_get_metadata_async collidingFetchEnv (some ["1", "2"]) none).1) =
      ["2"] := by
  exact ⟨rfl, rfl⟩

/-- C10: in both bulk fetch variants (resolution succeeding via `ru`,
and for the concurrent variant no metadata-extraction failure), an
input id `i` appears as a key of the result exactly when it is the
last submitted id resolving to its uid; every key is a submitted id;
and keys are unique.  So when two distinct ids resolve to the same
uid, only the later one is reported and the earlier one is absent. -/
theorem bulk_fetch_resolution_keeps_last (env : FetchEnv)
    (ids : List String) (ru : String → String)
    (hres : ∀ i ∈ ids, env.resolve i = Except.ok (ru i))
    (hnp : ∀ u e, env.fetchMeta u ≠ FetchRes.parseFail e) :
    (∃ r, (bulk_get_metadata env (some ids) none).1 = Except.ok r ∧
      (∀ i ∈ ids, (i ∈ keys r ↔
        (ids.filter (fun j => ru j == ru i)).getLast? = some i)) ∧
      (∀ k, k ∈ keys r → k ∈ ids) ∧ (keys r).Nodup) ∧
    (∃ r, (bulk_get_metadata_async env (some ids) none).1 = Except.ok r ∧
      (∀ i ∈ ids, (i ∈ keys r ↔
        (ids.filter (fun j => ru j == ru i)).getLast? = some i)) ∧
      (∀ k, k ∈ keys r → k ∈ ids) ∧ (keys r).Nodup) := by
  have hmem : ∀ k, ((∃ uid ∈ ids.map ru,
      (alookup (ids.foldl (fun m i => aset m (ru i) i) []) uid).getD uid = k)
      ↔ (∃ i ∈ ids, lastResolved ru ids (ru i) = some k)) := by
    intro k
    constructor
    · rintro ⟨uid, huid, rfl⟩
      rcases List.mem_map.mp huid with ⟨i, hi, rfl⟩
      rcases lastResolved_isSome ru ids i hi with ⟨j, hj⟩
      refine ⟨i, hi, ?_⟩
      rw [alookup_resolution_foldl_nil, hj]
      rfl
    · rintro ⟨i, hi, hlast⟩
      refine ⟨ru i, List.mem_map_of_mem ru hi, ?_⟩
      rw [alookup_resolution_foldl_nil, hlast]
      rfl
  have hsync : ∃ r, (bulk_get_metadata env (some ids) none).1 = Except.ok r ∧
      (∀ i ∈ ids, (i ∈ keys r ↔
        (ids.filter (fun j => ru j == ru i)).getLast? = some i)) ∧
      (∀ k, k ∈ keys r → k ∈ ids) ∧ (keys r).Nodup := by
    refine ⟨_, bulk_get_metadata_ids_fst env ids ru hres, ?_, ?_, ?_⟩
    · intro i hi
      rw [mem_keys_foldl_aset
        (fun uid => (alookup (ids.foldl (fun m j => aset m (ru j) j) [])
          uid).getD uid)
        (fun uid => seqOutcome (env.fetchMeta uid)) (ids.map ru) [] i]
      simp only [keys, List.map_nil, List.mem_nil_iff, or_false]
      rw [hmem i]
      constructor
      · rintro ⟨i', hi', hlast⟩
        rcases lastResolved_mem ru ids (ru i') i hlast with ⟨_, hri⟩
        rw [← lastResolved_eq_getLast_filter, hri]
        exact hlast
      · intro hfilter
        refine ⟨i, hi, ?_⟩
        rw [lastResolved_eq_getLast_filter]
        exact hfilter
    · intro k hk
      rw [mem_keys_foldl_aset
        (fun uid => (alookup (ids.foldl (fun m j => aset m (ru j) j) [])
          uid).getD uid)
        (fun uid => seqOutcome (env.fetchMeta uid)) (ids.map ru) [] k] at hk
      rcases hk with hk | hk
      · rcases (hmem k).mp hk with ⟨i, _, hlast⟩
        exact (lastResolved_mem ru ids (ru i) k hlast).1
      · simp [keys] at hk
    · exact nodup_keys_foldl_aset _ _ (ids.map ru) [] (by simp [keys])
  refine ⟨hsync, ?_⟩
  rcases hsync with ⟨r, hr, h1, h2, h3⟩
  exact ⟨r, (bulk_get_metadata_async_ids_fst env ids ru hres hnp).trans hr,
    h1, h2, h3⟩

/-- Witness for C10 at ids ["1", "2"] both resolving to "u": the key
"2" (the last collider) is present and "1" is not. -/
theorem bulk_fetch_resolution_keeps_last_witness :
    (∃ r, (bulk_get_metadata collidingFetchEnv2 (some ["1", "2"]) none).1 =
        Except.ok r ∧
      (∀ i ∈ (["1", "2"] : List String), (i ∈ keys r ↔
        ((["1", "2"] : List String).filter
          (fun j => (fun _ => "u") j == (fun _ => "u") i)).getLast? =
            some i)) ∧
      (∀ k, k ∈ keys r → k ∈ (["1", "2"] : List String)) ∧
      (keys r).Nodup) ∧
    (∃ r,
      (bulk_get_metadata_async collidingFetchEnv2 (some ["1", "2"]) none).1 =
        Except.ok r ∧
      (∀ i ∈ (["1", "2"] : List String), (i ∈ keys r ↔
        ((["1", "2"] : List String).filter
          (fun j => (fun _ => "u") j == (fun _ => "u") i)).getLast? =
            some i)) ∧
      (∀ k, k ∈ keys r → k ∈ (["1", "2"] : List String)) ∧
      (keys r).Nodup) :=
  bulk_fetch_resolution_keeps_last collidingFetchEnv2 ["1", "2"]
    (fun _ => "u") (fun _ _ => rfl) (fun _ _ h => nomatch h)

/-! ## Supporting lemmas: bulk update -/

theorem M.catchOut_fst (x : M α) (f : α → β) (g : Er → β) :
    (M.catchOut x f g).1 = Except.ok (match x.1 with
      | Except.ok a => f a
      | Except.error e => g e) := by
  obtain ⟨x1, x2⟩ := x
  cases x1 <;> rfl

theorem processUpdate_fst (env : UpdateEnv) (pub : Bool) (u : Spec)
    (h : specPrechecks env u) :
    (processUpdate env pub u).1 =
      Except.ok (specUid env u, specOutcome env pub u) := by
  obtain ⟨hnb, hor, hres⟩ := h
  have hcond2 : (!truthyO (alookup u "dataset_uid") &&
      !truthyO (alookup u "dataset_id")) = false := by
    rcases hor with h1 | h1 <;> simp [h1]
  by_cases htd : truthyO (alookup u "dataset_id") = true
  · rcases hres htd with ⟨s, hs⟩
    have hcond1 : (truthyO (alookup u "dataset_uid") &&
        truthyO (alookup u "dataset_id")) = false := by
      cases hdu : truthyO (alookup u "dataset_uid")
      · simp
      · exact absurd ⟨hdu, htd⟩ hnb
    have hdu : truthyO (alookup u "dataset_uid") = false := by
      cases hdu0 : truthyO (alookup u "dataset_uid")
      · rfl
      · exact absurd ⟨hdu0, htd⟩ hnb
    simp only [processUpdate, hcond1, hcond2, Bool.false_eq_true, if_false,
      htd, if_true, hs, M.bind, M.net, M.pure, M.catchOut_fst, JVal.pyStr,
      specUid, specOutcome]
    cases htb : (tryBody env pub s u).1 <;> simp [hdu, htb]
  · have htd' : truthyO (alookup u "dataset_id") = false := by
      simpa using htd
    have hdu : truthyO (alookup u "dataset_uid") = true := by
      rcases hor with h1 | h1
      · exact h1
      · rw [h1] at htd'
        exact absurd htd' (by simp)
    have hcond1 : (truthyO (alookup u "dataset_uid") &&
        truthyO (alookup u "dataset_id")) = false := by
      simp [htd']
    simp only [processUpdate, hcond1, hcond2, Bool.false_eq_true, if_false,
      htd', M.bind, M.pure, M.catchOut_fst, specUid, specOutcome]
    cases htb :
        (tryBody env pub ((alookup u "dataset_uid").getD
          (JVal.str "")).pyStr u).1 <;>
      simp [hdu, htb]

theorem bulkUpdateLoop_fst (env : UpdateEnv) (pub : Bool) :
    ∀ (updates : List Spec) (res : List (String × UpdOut)),
      (∀ u ∈ updates, specPrechecks env u) →
      (bulkUpdateLoop env pub updates res).1 =
        Except.ok (updates.foldl (fun r u =>
          aset r (specUid env u) (specOutcome env pub u)) res) := by
  intro updates
  induction updates with
  | nil => intro res _; rfl
  | cons u rest ih =>
    intro res h
    have h1 := processUpdate_fst env pub u (h u (by simp))
    have h2 := M.fst_bind_ok (processUpdate env pub u)
      (fun r => bulkUpdateLoop env pub rest (aset res r.1 r.2)) _ h1
    exact h2.trans (ih _ (fun v hv => h v (List.mem_cons_of_mem _ hv)))

theorem processUpdate_violation (env : UpdateEnv) (pub : Bool) (u : Spec)
    (h : specViolation u) :
    processUpdate env pub u = (Except.error (violationMsg u), []) := by
  rcases h with ⟨h1, h2⟩ | ⟨h1, h2⟩
  · simp only [processUpdate, violationMsg, h1, h2, Bool.and_self, if_true,
      M.fail]
  · simp only [processUpdate, violationMsg, h1, h2, Bool.and_self,
      Bool.and_false, Bool.false_eq_true, if_false, Bool.not_false,
      Bool.and_true, if_true, M.fail]

theorem bulkUpdateLoop_violation (env : UpdateEnv) (pub : Bool)
    (spec : Spec) (hv : specViolation spec) :
    ∀ (pre rest : List Spec) (res : List (String × UpdOut)),
      (∀ u ∈ pre, specPrechecks env u) →
      (bulkUpdateLoop env pub (pre ++ spec :: rest) res).1 =
        Except.error (violationMsg spec) := by
  intro pre
  induction pre with
  | nil =>
    intro rest res _
    exact M.fst_bind_error (processUpdate env pub spec) _ _
      (by rw [processUpdate_violation env pub spec hv])
  | cons u pre' ih =>
    intro rest res h
    have h1 := processUpdate_fst env pub u (h u (by simp))
    have h2 := M.fst_bind_ok (processUpdate env pub u)
      (fun r => bulkUpdateLoop env pub (pre' ++ spec :: rest)
        (aset res r.1 r.2)) _ h1
    exact h2.trans (ih rest _ (fun v hv' => h v (List.mem_cons_of_mem _ hv')))

theorem writeField_tmpl (md : Metadata) (k : String) (v : JVal)
    (t : String) (ht : t ≠ "default") :
    alookup (writeField md k v) t = alookup md t := by
  unfold writeField
  rw [alookup_aset, if_neg ht]
  by_cases hd : (alookup md "default").isSome
  · rw [if_pos hd]
  · rw [if_neg hd, alookup_aset, if_neg ht]

theorem writeField_obj_other (md : Metadata) (k : String) (v : JVal)
    (k' : String) (hk : k' ≠ k) :
    fieldObj (writeField md k v) k' = fieldObj md k' := by
  unfold writeField fieldObj
  rw [alookup_aset, if_pos rfl]
  simp only [Option.some_bind]
  rw [alookup_aset, if_neg hk]
  by_cases hd : (alookup md "default").isSome
  · rw [if_pos hd]
    rcases Option.isSome_iff_exists.mp hd with ⟨t0, ht0⟩
    rw [ht0]
    simp only [Option.getD_some, Option.some_bind]
    by_cases hf : (alookup t0 k).isSome
    · rw [if_pos hf]
    · rw [if_neg hf, alookup_aset, if_neg hk]
  · rw [if_neg hd]
    rw [Option.not_isSome_iff_eq_none] at hd
    rw [hd]
    rw [alookup_aset, if_pos rfl]
    simp only [Option.getD_none, Option.getD_some, Option.none_bind]
    have : alookup ([] : Tmpl) k = none := rfl
    rw [if_neg (by simp [this] : ¬(alookup ([] : Tmpl) k).isSome = true)]
    rw [alookup_aset, if_neg hk]
    rfl

theorem writeField_value_self (md : Metadata) (k : String) (v : JVal) :
    fieldValue (writeField md k v) k = some v := by
  unfold writeField fieldValue fieldObj
  rw [alookup_aset, if_pos rfl]
  simp only [Option.some_bind]
  rw [alookup_aset, if_pos rfl]
  simp only [Option.some_bind]
  rw [alookup_aset, if_pos rfl]

theorem applyFields_cons_ident (md : Metadata) (acc : List String)
    (k : String) (v : JVal) (rest : Spec)
    (hid : k = "dataset_uid" ∨ k = "dataset_id") :
    applyFields md acc ((k, v) :: rest) = applyFields md acc rest := by
  simp only [applyFields]
  rw [if_pos hid]

theorem applyFields_cons_nonident (md : Metadata) (acc : List String)
    (k : String) (v : JVal) (rest : Spec)
    (hid : ¬(k = "dataset_uid" ∨ k = "dataset_id")) :
    applyFields md acc ((k, v) :: rest) =
      applyFields (writeField md k v) (acc ++ [k]) rest := by
  simp only [applyFields]
  rw [if_neg hid]

theorem nonIdentKeys_cons_ident (k : String) (v : JVal) (rest : Spec)
    (hid : k = "dataset_uid" ∨ k = "dataset_id") :
    nonIdentKeys ((k, v) :: rest) = nonIdentKeys rest := by
  have hb : (!(k == "dataset_uid" || k == "dataset_id")) = false := by
    rcases hid with h | h <;> simp [h]
  unfold nonIdentKeys
  rw [List.map_cons, List.filter_cons, hb,
    if_neg (by decide : ¬(false = true))]

theorem nonIdentKeys_cons_nonident (k : String) (v : JVal) (rest : Spec)
    (hid : ¬(k = "dataset_uid" ∨ k = "dataset_id")) :
    nonIdentKeys ((k, v) :: rest) = k :: nonIdentKeys rest := by
  have hb : (!(k == "dataset_uid" || k == "dataset_id")) = true := by
    push_neg at hid
    simp [hid.1, hid.2]
  unfold nonIdentKeys
  rw [List.map_cons, List.filter_cons, hb, if_pos rfl]

theorem applyFields_snd :
    ∀ (u : Spec) (md : Metadata) (acc : List String),
      (applyFields md acc u).2 = acc ++ nonIdentKeys u := by
  intro u
  induction u with
  | nil => intro md acc; simp [applyFields, nonIdentKeys]
  | cons kv rest ih =>
    intro md acc
    obtain ⟨k, v⟩ := kv
    by_cases hid : k = "dataset_uid" ∨ k = "dataset_id"
    · rw [applyFields_cons_ident md acc k v rest hid, ih md acc,
        nonIdentKeys_cons_ident k v rest hid]
    · rw [applyFields_cons_nonident md acc k v rest hid, ih _ _,
        nonIdentKeys_cons_nonident k v rest hid]
      simp

theorem applyFields_tmpl :
    ∀ (u : Spec) (md : Metadata) (acc : List String) (t : String),
      t ≠ "default" →
      alookup ((applyFields md acc u).1) t = alookup md t := by
  intro u
  induction u with
  | nil => intro md acc t _; rfl
  | cons kv rest ih =>
    intro md acc t ht
    obtain ⟨k, v⟩ := kv
    by_cases hid : k = "dataset_uid" ∨ k = "dataset_id"
    · rw [applyFields_cons_ident md acc k v rest hid]
      exact ih md acc t ht
    · rw [applyFields_cons_nonident md acc k v rest hid]
      rw [ih _ _ t ht]
      exact writeField_tmpl md k v t ht

theorem applyFields_obj_untouched :
    ∀ (u : Spec) (md : Metadata) (acc : List String) (k' : String),
      k' ∉ nonIdentKeys u →
      fieldObj ((applyFields md acc u).1) k' = fieldObj md k' := by
  intro u
  induction u with
  | nil => intro md acc k' _; rfl
  | cons kv rest ih =>
    intro md acc k' hk'
    obtain ⟨k, v⟩ := kv
    by_cases hid : k = "dataset_uid" ∨ k = "dataset_id"
    · rw [applyFields_cons_ident md acc k v rest hid]
      rw [nonIdentKeys_cons_ident k v rest hid] at hk'
      exact ih md acc k' hk'
    · rw [applyFields_cons_nonident md acc k v rest hid]
      rw [nonIdentKeys_cons_nonident k v rest hid] at hk'
      have hne : k' ≠ k := fun h => hk' (h ▸ List.mem_cons_self _ _)
      have hnr : k' ∉ nonIdentKeys rest :=
        fun h => hk' (List.mem_cons_of_mem _ h)
      rw [ih _ _ k' hnr]
      exact writeField_obj_other md k v k' hne

theorem applyFields_value_written :
    ∀ (u : Spec) (md : Metadata) (acc : List String) (k : String) (v : JVal),
      (u.map Prod.fst).Nodup → (k, v) ∈ u →
      ¬(k = "dataset_uid" ∨ k = "dataset_id") →
      fieldValue ((applyFields md acc u).1) k = some v := by
  intro u
  induction u with
  | nil => intro md acc k v _ hmem _; simp at hmem
  | cons kv rest ih =>
    intro md acc k v hnd hmem hid
    obtain ⟨k0, v0⟩ := kv
    have hnd' : k0 ∉ rest.map Prod.fst ∧ (rest.map Prod.fst).Nodup := by
      simpa using hnd
    rcases List.mem_cons.mp hmem with heq | hmem'
    · injection heq with hk hv
      subst hk
      subst hv
      rw [applyFields_cons_nonident md acc k v rest hid]
      have hknot : k ∉ nonIdentKeys rest := by
        intro hmemk
        exact hnd'.1 (List.mem_of_mem_filter hmemk)
      have hobj := applyFields_obj_untouched rest (writeField md k v)
        (acc ++ [k]) k hknot
      have hval : fieldValue ((applyFields (writeField md k v)
          (acc ++ [k]) rest).1) k = fieldValue (writeField md k v) k := by
        unfold fieldValue
        rw [hobj]
      rw [hval]
      exact writeField_value_self md k v
    · by_cases hid0 : k0 = "dataset_uid" ∨ k0 = "dataset_id"
      · rw [applyFields_cons_ident md acc k0 v0 rest hid0]
        exact ih md acc k v hnd'.2 hmem' hid
      · rw [applyFields_cons_nonident md acc k0 v0 rest hid0]
        exact ih _ _ k v hnd'.2 hmem' hid

theorem tryBody_run (env : UpdateEnv) (pub : Bool) (uid : String) (u : Spec)
    (md : Metadata)
    (hfetch : env.fetchMeta uid = Except.ok md)
    (hput : env.putMeta uid (applyFields md [] u).1 = Except.ok ())
    (hpub : pub = true → env.publishOp uid = Except.ok ()) :
    tryBody env pub uid u =
      (Except.ok (applyFields md [] u).2,
        [Call.getMeta uid, Call.putMeta uid (applyFields md [] u).1] ++
          (if pub then [Call.publish uid] else [])) := by
  cases pub with
  | false =>
    simp [tryBody, hfetch, hput, M.bind, M.net, M.pure]
  | true =>
    simp [tryBody, hfetch, hput, hpub rfl, M.bind, M.net, M.pure]

/-- C1 (amended): provided every spec passes the truthiness validation
and, when given a numeric id, its resolution call succeeds (these run
before the per-spec `try` and abort the batch otherwise), the bulk
update call never raises: it returns the accumulated mapping in which
each spec contributes the outcome of its own `try` body,
independently; a spec whose metadata fetch, field write, document PUT
or publish raises is recorded as `{status: error, error: message}`, a
spec whose body completes is recorded as `{status: success, ...}`, and
every spec's uid is a key of the returned mapping. -/
theorem bulk_update_failure_isolation (env : UpdateEnv) (pub : Bool)
    (updates : List Spec)
    (h : ∀ u ∈ updates, specPrechecks env u) :
    ((bulk_update_metadata_async env updates pub).1 =
      Except.ok (updates.foldl (fun r u =>
        aset r (specUid env u) (specOutcome env pub u)) [])) ∧
    (∀ u ∈ updates, ∀ e,
      (tryBody env pub (specUid env u) u).1 = Except.error e →
      specOutcome env pub u = UpdOut.failure e) ∧
    (∀ u ∈ updates, ∀ fu,
      (tryBody env pub (specUid env u) u).1 = Except.ok fu →
      specOutcome env pub u = UpdOut.success fu) ∧
    (∀ u ∈ updates, specUid env u ∈
      keys (updates.foldl (fun r v =>
        aset r (specUid env v) (specOutcome env pub v)) [])) := by
  refine ⟨bulkUpdateLoop_fst env pub updates [] h, ?_, ?_, ?_⟩
  · intro u _ e he
    unfold specOutcome
    rw [he]
  · intro u _ fu hfu
    unfold specOutcome
    rw [hfu]
  · intro u hu
    rw [mem_keys_foldl_aset (fun v => specUid env v)
      (fun v => specOutcome env pub v) updates [] (specUid env u)]
    exact Or.inl ⟨u, hu, rfl⟩

/-- Witness for C1 at the spec scenario: specs for "ua", "ub", "uc"
where only the fetch of "ub" raises — the batch returns a mapping in
which every spec has an outcome. -/
theorem bulk_update_failure_isolation_witness :
    ((bulk_update_metadata_async isolationDemoEnv
        [[("dataset_uid", JVal.str "ua"), ("title", JVal.str "X")],
          [("dataset_uid", JVal.str "ub"), ("title", JVal.str "Y")],
          [("dataset_uid", JVal.str "uc"), ("title", JVal.str "Z")]]
        true).1 =
      Except.ok
        ([[("dataset_uid", JVal.str "ua"), ("title", JVal.str "X")],
          [("dataset_uid", JVal.str "ub"), ("title", JVal.str "Y")],
          [("dataset_uid", JVal.str "uc"), ("title", JVal.str "Z")]].foldl
          (fun r u =>
            aset r (specUid isolationDemoEnv u)
              (specOutcome isolationDemoEnv true u)) [])) ∧
    (∀ u ∈ [[("dataset_uid", JVal.str "ua"), ("title", JVal.str "X")],
        [("dataset_uid", JVal.str "ub"), ("title", JVal.str "Y")],
        [("dataset_uid", JVal.str "uc"), ("title", JVal.str "Z")]], ∀ e,
      (tryBody isolationDemoEnv true (specUid isolationDemoEnv u) u).1 =
        Except.error e →
      specOutcome isolationDemoEnv true u = UpdOut.failure e) ∧
    (∀ u ∈ [[("dataset_uid", JVal.str "ua"), ("title", JVal.str "X")],
        [("dataset_uid", JVal.str "ub"), ("title", JVal.str "Y")],
        [("dataset_uid", JVal.str "uc"), ("title", JVal.str "Z")]], ∀ fu,
      (tryBody isolationDemoEnv true (specUid isolationDemoEnv u) u).1 =
        Except.ok fu →
      specOutcome isolationDemoEnv true u = UpdOut.success fu) ∧
    (∀ u ∈ [[("dataset_uid", JVal.str "ua"), ("title", JVal.str "X")],
        [("dataset_uid", JVal.str "ub"), ("title", JVal.str "Y")],
        [("dataset_uid", JVal.str "uc"), ("title", JVal.str "Z")]],
      specUid isolationDemoEnv u ∈
        keys ([[("dataset_uid", JVal.str "ua"), ("title", JVal.str "X")],
          [("dataset_uid", JVal.str "ub"), ("title", JVal.str "Y")],
          [("dataset_uid", JVal.str "uc"), ("title", JVal.str "Z")]].foldl
          (fun r v =>
            aset r (specUid isolationDemoEnv v)
              (specOutcome isolationDemoEnv true v)) [])) :=
  bulk_update_failure_isolation isolationDemoEnv true
    [[("dataset_uid", JVal.str "ua"), ("title", JVal.str "X")],
      [("dataset_uid", JVal.str "ub"), ("title", JVal.str "Y")],
      [("dataset_uid", JVal.str "uc"), ("title", JVal.str "Z")]]
    (by
      intro u hu
      simp only [List.mem_cons, List.not_mem_nil, or_false] at hu
      rcases hu with rfl | rfl | rfl <;>
        exact ⟨by decide, by decide, fun h => nomatch h⟩)

/-- Counterexample to C1 as stated: an exception during identifier
resolution (step 2) of the first spec propagates out of the bulk
update call — the batch raises instead of recording an error outcome,
and the second, well-formed spec is never processed. -/
theorem bulk_update_failure_isolation_cex :
    (bulk_update_metadata_async resolveFailEnv
        [[("dataset_id", JVal.str "1"), ("title", JVal.str "X")],
          [("dataset_uid", JVal.str "u2"), ("title", JVal.str "Y")]]
        true).1 =
      Except.error "resolve boom" := rfl

/-- C3 (amended): a spec carrying both identifiers (by truthiness) or
neither raises a ValueError from the batch call itself: whatever
well-formed specs precede it and whatever specs follow it, the bulk
update call propagates the exception instead of returning a result
mapping — the violation aborts the whole batch, and no error outcome
is recorded for that spec. -/
theorem bulk_update_validation_aborts_batch (env : UpdateEnv) (pub : Bool)
    (pre rest : List Spec) (spec : Spec)
    (hpre : ∀ u ∈ pre, specPrechecks env u)
    (hv : specViolation spec) :
    (bulk_update_metadata_async env (pre ++ spec :: rest) pub).1 =
      Except.error (violationMsg spec) :=
  bulkUpdateLoop_violation env pub spec hv pre rest [] hpre

/-- Witness for C3: a well-formed spec followed by a spec carrying
both identifiers followed by another well-formed spec — the call
raises the "contains both" ValueError. -/
theorem bulk_update_validation_aborts_batch_witness :
    (bulk_update_metadata_async allOkUpdateEnv
        ([[("dataset_uid", JVal.str "ua"), ("title", JVal.str "X")]] ++
          [("dataset_uid", JVal.str "a"), ("dataset_id", JVal.str "1"),
            ("title", JVal.str "Y")] ::
          [[("dataset_uid", JVal.str "uc"), ("title", JVal.str "Z")]])
        true).1 =
      Except.error (violationMsg
        [("dataset_uid", JVal.str "a"), ("dataset_id", JVal.str "1"),
          ("title", JVal.str "Y")]) :=
  bulk_update_validation_aborts_batch allOkUpdateEnv true
    [[("dataset_uid", JVal.str "ua"), ("title", JVal.str "X")]]
    [[("dataset_uid", JVal.str "uc"), ("title", JVal.str "Z")]]
    [("dataset_uid", JVal.str "a"), ("dataset_id", JVal.str "1"),
      ("title", JVal.str "Y")]
    (by
      intro u hu
      simp only [List.mem_cons, List.not_mem_nil, or_false] at hu
      rcases hu with rfl
      exact ⟨by decide, by decide, fun h => nomatch h⟩)
    (by
      refine Or.inl ⟨?_, ?_⟩ <;> decide)

/-- Counterexample to C3 as stated: a spec with both dataset_uid and
dataset_id raises a ValueError that aborts the whole batch call — the
following spec is not processed and no result mapping (with an error
outcome for the offending spec) is returned. -/
theorem bulk_update_validation_aborts_batch_cex :
    (bulk_update_metadata_async allOkUpdateEnv2
        [[("dataset_uid", JVal.str "a"), ("dataset_id", JVal.str "1"),
            ("title", JVal.str "X")],
          [("dataset_uid", JVal.str "b"), ("title", JVal.str "Y")]]
        true).1 =
      Except.error "Update contains both dataset_id and dataset_uid" := rfl

/-- C7: for a spec processed without exception (prechecks pass, fetch
returns the document, PUT and publish succeed), the recorded outcome
is `{status: success, fields_updated: l}` where `l` is exactly the
list of non-identifier spec keys in order; in the document sent as the
PUT body every non-identifier spec entry is written at
`default.<field>.value` (template and field entries created if
absent), every other template is unchanged, and every default-template
field not named by the spec is unchanged. -/
theorem bulk_update_success_postcondition (env : UpdateEnv) (pub : Bool)
    (u : Spec) (uid : String) (md : Metadata)
    (hpre : specPrechecks env u)
    (hnodup : (u.map Prod.fst).Nodup)
    (huid : uid = specUid env u)
    (hfetch : env.fetchMeta uid = Except.ok md)
    (hput : env.putMeta uid (applyFields md [] u).1 = Except.ok ())
    (hpub : pub = true → env.publishOp uid = Except.ok ()) :
    (processUpdate env pub u).1 =
        Except.ok (uid, UpdOut.success (nonIdentKeys u)) ∧
    (applyFields md [] u).2 = nonIdentKeys u ∧
    (∀ k v, (k, v) ∈ u → ¬(k = "dataset_uid" ∨ k = "dataset_id") →
      fieldValue ((applyFields md [] u).1) k = some v) ∧
    (∀ t, t ≠ "default" →
      alookup ((applyFields md [] u).1) t = alookup md t) ∧
    (∀ k, k ∉ nonIdentKeys u →
      fieldObj ((applyFields md [] u).1) k = fieldObj md k) ∧
    Call.putMeta uid ((applyFields md [] u).1) ∈ (tryBody env pub uid u).2 := by
  subst huid
  have htr := tryBody_run env pub (specUid env u) u md hfetch hput hpub
  have h1 : (tryBody env pub (specUid env u) u).1 =
      Except.ok (nonIdentKeys u) := by
    rw [htr]
    simp [applyFields_snd]
  refine ⟨?_, ?_, ?_, ?_, ?_, ?_⟩
  · rw [processUpdate_fst env pub u hpre]
    unfold specOutcome
    rw [h1]
  · simpa using applyFields_snd u md []
  · intro k v hkv hid
    exact applyFields_value_written u md [] k v hnodup hkv hid
  · intro t ht
    exact applyFields_tmpl u md [] t ht
  · intro k hk
    exact applyFields_obj_untouched u md [] k hk
  · rw [htr]
    simp

/-- Witness for C7: a uid-identified spec writing `title` against a
document holding an unrelated description field and a dcat template. -/
theorem bulk_update_success_postcondition_witness :
    (processUpdate successDemoEnv true
        [("dataset_uid", JVal.str "u1"), ("title", JVal.str "T")]).1 =
        Except.ok ("u1", UpdOut.success
          (nonIdentKeys
            [("dataset_uid", JVal.str "u1"), ("title", JVal.str "T")])) ∧
    (applyFields
        [("default", [("description", [("value", JVal.str "d")])]),
          ("dcat", [("creator", [("value", JVal.str "c")])])] []
        [("dataset_uid", JVal.str "u1"), ("title", JVal.str "T")]).2 =
      nonIdentKeys
        [("dataset_uid", JVal.str "u1"), ("title", JVal.str "T")] ∧
    (∀ k v,
      (k, v) ∈ [("dataset_uid", JVal.str "u1"), ("title", JVal.str "T")] →
      ¬(k = "dataset_uid" ∨ k = "dataset_id") →
      fieldValue ((applyFields
        [("default", [("description", [("value", JVal.str "d")])]),
          ("dcat", [("creator", [("value", JVal.str "c")])])] []
        [("dataset_uid", JVal.str "u1"), ("title", JVal.str "T")]).1) k =
        some v) ∧
    (∀ t, t ≠ "default" →
      alookup ((applyFields
        [("default", [("description", [("value", JVal.str "d")])]),
          ("dcat", [("creator", [("value", JVal.str "c")])])] []
        [("dataset_uid", JVal.str "u1"), ("title", JVal.str "T")]).1) t =
      alookup
        [("default", [("description", [("value", JVal.str "d")])]),
          ("dcat", [("creator", [("value", JVal.str "c")])])] t) ∧
    (∀ k, k ∉ nonIdentKeys
        [("dataset_uid", JVal.str "u1"), ("title", JVal.str "T")] →
      fieldObj ((applyFields
        [("default", [("description", [("value", JVal.str "d")])]),
          ("dcat", [("creator", [("value", JVal.str "c")])])] []
        [("dataset_uid", JVal.str "u1"), ("title", JVal.str "T")]).1) k =
      fieldObj
        [("default", [("description", [("value", JVal.str "d")])]),
          ("dcat", [("creator", [("value", JVal.str "c")])])] k) ∧
    Call.putMeta "u1" ((applyFields
        [("default", [("description", [("value", JVal.str "d")])]),
          ("dcat", [("creator", [("value", JVal.str "c")])])] []
        [("dataset_uid", JVal.str "u1"), ("title", JVal.str "T")]).1) ∈
      (tryBody successDemoEnv true "u1"
        [("dataset_uid", JVal.str "u1"), ("title", JVal.str "T")]).2 :=
  bulk_update_success_postcondition successDemoEnv true
    [("dataset_uid", JVal.str "u1"), ("title", JVal.str "T")] "u1"
    [("default", [("description", [("value", JVal.str "d")])]),
      ("dcat", [("creator", [("value", JVal.str "c")])])]
    ⟨by decide, by decide, fun h => nomatch h⟩
    (by decide) rfl rfl rfl (fun _ => rfl)

/-! ## Supporting lemmas: bulk id listing -/

theorem wfPages_tail (p : Page) (rest : List Page)
    (h : wfPages (p :: rest)) (hne : rest ≠ []) : wfPages rest := by
  obtain ⟨h1, h2⟩ := h
  cases rest with
  | nil => exact absurd rfl hne
  | cons r rest' =>
    constructor
    · intro q hq
      exact h1 q (List.mem_cons_of_mem p hq)
    · intro q hq
      apply h2
      rw [List.getLast?_cons_cons]
      exact hq

theorem wfPages_single_next (p : Page) (rest : List Page)
    (h : wfPages (p :: rest)) (hnext : p.nextLink = true) : rest ≠ [] := by
  intro hr
  subst hr
  have := h.2 p rfl
  rw [this] at hnext
  exact absurd hnext (by decide)

theorem wfPages_head_next (p : Page) (rest : List Page)
    (h : wfPages (p :: rest)) (hne : rest ≠ []) : p.nextLink = true := by
  cases rest with
  | nil => exact absurd rfl hne
  | cons r rest' => exact (h.1 p (by simp [List.dropLast])).2

theorem wfPages_head_results (p : Page) (rest : List Page)
    (h : wfPages (p :: rest)) (hne : rest ≠ []) : p.results ≠ [] := by
  cases rest with
  | nil => exact absurd rfl hne
  | cons r rest' => exact (h.1 p (by simp [List.dropLast])).1

theorem pageTotal_cons (inc : Bool) (p : Page) (rest : List Page) :
    pageTotal inc (p :: rest) =
      (filteredIds inc p.results).length + pageTotal inc rest := by
  simp [pageTotal]

theorem filteredIds_nil (inc : Bool) : filteredIds inc [] = [] := by
  cases inc <;> rfl

theorem maxTruthy_pos (m : Nat) (hm : 0 < m) :
    maxTruthy (some m) = true := by
  simp [maxTruthy]
  omega

theorem bulkIdsLoop_length_some (inc : Bool) (m : Nat) (hm : 0 < m) :
    ∀ (pages : List Page) (acc : List String),
      wfPages pages → acc.length < m →
      (bulkIdsLoop inc (some m) pages acc).length =
        min m (acc.length + pageTotal inc pages) := by
  intro pages
  induction pages with
  | nil =>
    intro acc _ hacc
    simp only [bulkIdsLoop, pageTotal, List.map_nil, List.sum_nil]
    omega
  | cons p rest ih =>
    intro acc hwf hacc
    simp only [bulkIdsLoop]
    by_cases hE : p.results.isEmpty = true
    · rw [if_pos hE]
      have hres : p.results = [] := List.isEmpty_iff.mp hE
      have hrest : rest = [] := by
        by_contra hne
        exact (wfPages_head_results p rest hwf hne) hres
      subst hrest
      rw [pageTotal_cons, hres, filteredIds_nil]
      simp only [List.length_nil, pageTotal, List.map_nil, List.sum_nil]
      omega
    · rw [if_neg hE]
      rw [maxTruthy_pos m hm]
      simp only [Option.getD_some, Bool.true_and]
      by_cases hle : m ≤ (acc ++ filteredIds inc p.results).length
      · rw [if_pos (by simpa using hle)]
        rw [List.length_take, pageTotal_cons, List.length_append]
        rw [List.length_append] at hle
        omega
      · rw [if_neg (by simpa using hle)]
        by_cases hnext : p.nextLink = true
        · rw [hnext]
          simp only [Bool.not_true, Bool.false_eq_true, if_false]
          have hne := wfPages_single_next p rest hwf hnext
          rw [ih _ (wfPages_tail p rest hwf hne)
            (by simpa using hle)]
          rw [List.length_append, pageTotal_cons]
          rw [List.length_append] at hle
          omega
        · have hnext' : p.nextLink = false := by simpa using hnext
          rw [hnext']
          simp only [Bool.not_false, if_true]
          have hrest : rest = [] := by
            by_contra hne
            rw [wfPages_head_next p rest hwf hne] at hnext'
            exact absurd hnext' (by decide)
          subst hrest
          rw [List.length_append, pageTotal_cons]
          rw [List.length_append] at hle
          simp only [pageTotal, List.map_nil, List.sum_nil]
          omega

theorem bulkIdsLoop_length_none (inc : Bool) :
    ∀ (pages : List Page) (acc : List String),
      wfPages pages →
      (bulkIdsLoop inc none pages acc).length =
        acc.length + pageTotal inc pages := by
  intro pages
  induction pages with
  | nil =>
    intro acc _
    simp [bulkIdsLoop, pageTotal]
  | cons p rest ih =>
    intro acc hwf
    simp only [bulkIdsLoop, maxTruthy, Bool.false_and, Bool.false_eq_true,
      if_false]
    by_cases hE : p.results.isEmpty = true
    · rw [if_pos hE]
      have hres : p.results = [] := List.isEmpty_iff.mp hE
      have hrest : rest = [] := by
        by_contra hne
        exact (wfPages_head_results p rest hwf hne) hres
      subst hrest
      rw [pageTotal_cons, hres, filteredIds_nil]
      simp [pageTotal]
    · rw [if_neg hE]
      by_cases hnext : p.nextLink = true
      · rw [hnext]
        simp only [Bool.not_true, Bool.false_eq_true, if_false]
        have hne := wfPages_single_next p rest hwf hnext
        rw [ih _ (wfPages_tail p rest hwf hne)]
        rw [List.length_append, pageTotal_cons]
        omega
      · have hnext' : p.nextLink = false := by simpa using hnext
        rw [hnext']
        simp only [Bool.not_false, if_true]
        have hrest : rest = [] := by
          by_contra hne
          rw [wfPages_head_next p rest hwf hne] at hnext'
          exact absurd hnext' (by decide)
        subst hrest
        rw [List.length_append, pageTotal_cons]
        simp [pageTotal]

theorem bulkIdsLoopAsync_length_some (inc : Bool) (m : Nat) (hm : 0 < m) :
    ∀ (pages : List Page) (acc : List String),
      wfPages pages → acc.length < m →
      (bulkIdsLoopAsync inc (some m) pages acc).length =
        min m (acc.length + pageTotal inc pages) := by
  intro pages
  induction pages with
  | nil =>
    intro acc _ hacc
    simp only [bulkIdsLoopAsync, pageTotal, List.map_nil, List.sum_nil]
    omega
  | cons p rest ih =>
    intro acc hwf hacc
    simp only [bulkIdsLoopAsync]
    rw [maxTruthy_pos m hm]
    simp only [Option.getD_some, Bool.true_and]
    by_cases hle : m ≤ (acc ++ filteredIds inc p.results).length
    · rw [if_pos (by simpa using hle)]
      rw [List.length_take, pageTotal_cons, List.length_append]
      rw [List.length_append] at hle
      omega
    · rw [if_neg (by simpa using hle)]
      by_cases hnext : p.nextLink = true
      · rw [hnext]
        simp only [Bool.not_true, Bool.false_eq_true, if_false]
        have hne := wfPages_single_next p rest hwf hnext
        rw [ih _ (wfPages_tail p rest hwf hne) (by simpa using hle)]
        rw [List.length_append, pageTotal_cons]
        rw [List.length_append] at hle
        omega
      · have hnext' : p.nextLink = false := by simpa using hnext
        rw [hnext']
        simp only [Bool.not_false, if_true]
        have hrest : rest = [] := by
          by_contra hne
          rw [wfPages_head_next p rest hwf hne] at hnext'
          exact absurd hnext' (by decide)
        subst hrest
        rw [List.length_append, pageTotal_cons]
        rw [List.length_append] at hle
        simp only [pageTotal, List.map_nil, List.sum_nil]
        omega

theorem bulkIdsLoopAsync_length_none (inc : Bool) :
    ∀ (pages : List Page) (acc : List String),
      wfPages pages →
      (bulkIdsLoopAsync inc none pages acc).length =
        acc.length + pageTotal inc pages := by
  intro pages
  induction pages with
  | nil =>
    intro acc _
    simp [bulkIdsLoopAsync, pageTotal]
  | cons p rest ih =>
    intro acc hwf
    simp only [bulkIdsLoopAsync, maxTruthy, Bool.false_and,
      Bool.false_eq_true, if_false]
    by_cases hnext : p.nextLink = true
    · rw [hnext]
      simp only [Bool.not_true, Bool.false_eq_true, if_false]
      have hne := wfPages_single_next p rest hwf hnext
      rw [ih _ (wfPages_tail p rest hwf hne)]
      rw [List.length_append, pageTotal_cons]
      omega
    · have hnext' : p.nextLink = false := by simpa using hnext
      rw [hnext']
      simp only [Bool.not_false, if_true]
      have hrest : rest = [] := by
        by_contra hne
        rw [wfPages_head_next p rest hwf hne] at hnext'
        exact absurd hnext' (by decide)
      subst hrest
      rw [List.length_append, pageTotal_cons]
      simp [pageTotal]

theorem pySort_length (l : List String) : (pySort l).length = l.length :=
  List.length_insertionSort pyLe l

theorem pySort_sorted (l : List String) : List.Sorted pyLe (pySort l) :=
  List.sorted_insertionSort pyLe l

/-- C8 (amended): on a well-formed pagination (non-final pages have
nonempty results and a next link; the final page has none) and with
`max_datasets` either `None` or positive, both listing variants return
a list of length exactly `min(max_datasets, totalAvailable)`
(`totalAvailable` counted after restricted-filtering; `min` omitted
when `max_datasets` is `None`), sorted ascending in the Python string
order.  (`max_datasets = 0` is excluded: the code tests the parameter
by truthiness, so `0` behaves like `None`; and only the sequential
variant stops at an empty page — the concurrent one follows the next
link past it — so empty non-final pages are excluded.) -/
theorem bulk_ids_pagination (pages : List Page) (inc : Bool)
    (maxd : Option Nat)
    (hwf : wfPages pages)
    (hpos : maxd = none ∨ ∃ m, maxd = some m ∧ 0 < m) :
    ((bulk_get_dataset_ids pages inc maxd).length =
      match maxd with
      | none => pageTotal inc pages
      | some m => min m (pageTotal inc pages)) ∧
    ((bulk_get_dataset_ids_async pages inc maxd).length =
      match maxd with
      | none => pageTotal inc pages
      | some m => min m (pageTotal inc pages)) ∧
    List.Sorted pyLe (bulk_get_dataset_ids pages inc maxd) ∧
    List.Sorted pyLe (bulk_get_dataset_ids_async pages inc maxd) := by
  refine ⟨?_, ?_, pySort_sorted _, pySort_sorted _⟩
  · rcases hpos with rfl | ⟨m, rfl, hm⟩
    · rw [bulk_get_dataset_ids, pySort_length,
        bulkIdsLoop_length_none inc pages [] hwf]
      simp
    · rw [bulk_get_dataset_ids, pySort_length,
        bulkIdsLoop_length_some inc m hm pages [] hwf (by simpa using hm)]
      simp
  · rcases hpos with rfl | ⟨m, rfl, hm⟩
    · rw [bulk_get_dataset_ids_async, pySort_length,
        bulkIdsLoopAsync_length_none inc pages [] hwf]
      simp
    · rw [bulk_get_dataset_ids_async, pySort_length,
        bulkIdsLoopAsync_length_some inc m hm pages [] hwf
          (by simpa using hm)]
      simp

/-- Witness for C8: a two-page collection with three ids, one of them
restricted, listed with include_restricted = false and max_datasets =
1 in both variants. -/
theorem bulk_ids_pagination_witness :
    ((bulk_get_dataset_ids
        [⟨[("b", false), ("c", true)], true⟩, ⟨[("a", false)], false⟩]
        false (some 1)).length =
      match some 1 with
      | none => pageTotal false
          [⟨[("b", false), ("c", true)], true⟩, ⟨[("a", false)], false⟩]
      | some m => min m (pageTotal false
          [⟨[("b", false), ("c", true)], true⟩, ⟨[("a", false)], false⟩])) ∧
    ((bulk_get_dataset_ids_async
        [⟨[("b", false), ("c", true)], true⟩, ⟨[("a", false)], false⟩]
        false (some 1)).length =
      match some 1 with
      | none => pageTotal false
          [⟨[("b", false), ("c", true)], true⟩, ⟨[("a", false)], false⟩]
      | some m => min m (pageTotal false
          [⟨[("b", false), ("c", true)], true⟩, ⟨[("a", false)], false⟩])) ∧
    List.Sorted pyLe (bulk_get_dataset_ids
      [⟨[("b", false), ("c", true)], true⟩, ⟨[("a", false)], false⟩]
      false (some 1)) ∧
    List.Sorted pyLe (bulk_get_dataset_ids_async
      [⟨[("b", false), ("c", true)], true⟩, ⟨[("a", false)], false⟩]
      false (some 1)) :=
  bulk_ids_pagination
    [⟨[("b", false), ("c", true)], true⟩, ⟨[("a", false)], false⟩]
    false (some 1)
    ⟨by decide, fun p hp => by cases hp; rfl⟩
    (Or.inr ⟨1, rfl, by decide⟩)

/-- Counterexample to C8 as stated: with max_datasets = 0 the code
treats the limit as absent (Python truthiness of 0), so a one-page
collection with one id returns a list of length 1, not
min(0, totalAvailable) = 0. -/
theorem bulk_ids_pagination_cex :
    (bulk_get_dataset_ids [⟨[("a", false)], false⟩] true (some 0)).length ≠
      min 0 (pageTotal true [⟨[("a", false)], false⟩]) := by
  decide

end Huwise

